import Mathlib

/-!
Verification model of the shiri-bridge audio fan-out and group lifecycle
engine (`src/shiri-bridge/src/main.cpp`, `RaopHostage.cpp`).  Pure C++
functions are translated to Lean functions; the shared mutable state
(`speakerStates`, `groups`) becomes explicit state passing; the RAOP
library and the network are modelled as boolean oracles recorded per
hostage.  All definitions follow the C++ source; theorems at the end
settle the specification claims.
-/

namespace Shiri

/-- Association-list lookup, mirroring `std::map::find` (keys unique). -/
def alookup {α : Type} (k : String) : List (String × α) → Option α
  | [] => none
  | (k', v) :: rest => if k' = k then some v else alookup k rest

/-- Update the (first) entry with key `k` in place, mirroring mutation
through a `std::map` iterator. -/
def aupdate {α : Type} (k : String) (f : α → α) : List (String × α) → List (String × α)
  | [] => []
  | (k', v) :: rest => if k' = k then (k', f v) :: rest else (k', v) :: aupdate k f rest

/-- Erase the entry with key `k`, mirroring `std::map::erase`. -/
def aerase {α : Type} (k : String) : List (String × α) → List (String × α)
  | [] => []
  | (k', v) :: rest => if k' = k then rest else (k', v) :: aerase k rest

/-- `m[k] = v` on a `std::map`: update if present, append otherwise. -/
def aupsert {α : Type} (k : String) (v : α) (m : List (String × α)) : List (String × α) :=
  match alookup k m with
  | some _ => aupdate k (fun _ => v) m
  | none => m ++ [(k, v)]

/-! ## Constants (`main.cpp` lines 81-85, 314-315) -/

def kAudioBytesPerFrame : Nat := 4
def kFramesPerChunk : Nat := 352
def kChunkBytes : Nat := kAudioBytesPerFrame * kFramesPerChunk
def kMaxQueuedChunks : Nat := 128
def kBaseGroupPort : Int := 6000
def kMaxGroupPort : Int := 20000

/-! ## Data model -/

/-- A PCM byte buffer / chunk (byte values as `Nat`). -/
abbrev Chunk := List Nat

/-- Behavioural model of one live `RaopHostage` as seen by the group
engine: the `connected_` flag plus oracles giving the outcome of the
RAOP-library-backed operations (`waitForFramesReady`, `sendAudioChunk`)
and of a `connect()` issued after a `disconnect()`. -/
structure HostageB where
  connected : Bool
  waitReady : Bool
  sendOk : Bool
  reconnectOk : Bool
deriving DecidableEq, Repr

/-- `Speaker` from `Discovery.h` (TXT map omitted; unused by the engine). -/
structure Speaker where
  name : String := ""
  ip : String := ""
  port : Int := 0
  id : String := ""
  hostname : String := ""
  et : String := ""
  requiresAuth : Bool := false
  passwordRequired : Bool := false
deriving DecidableEq, Repr

/-- `SpeakerState` from `main.cpp` lines 62-67. -/
structure SpeakerState where
  info : Speaker := {}
  connected : Bool := false
  reserved : Bool := false
  hostage : Option HostageB := none
deriving DecidableEq, Repr

/-- `GroupInfo` from `main.cpp` lines 69-80 (thread handle omitted). -/
structure GroupInfo where
  name : String := ""
  port : Int := 0
  parentInterface : String := ""
  speakerIds : List String := []
  chunkQueue : List Chunk := []
  pendingBytes : List Nat := []
  streamerRunning : Bool := false
  consecutiveSilenceChunks : Nat := 0
deriving DecidableEq, Repr

abbrev Speakers := List (String × SpeakerState)
abbrev Groups := List (String × GroupInfo)

/-- The shared state guarded by `stateMutex`. -/
structure AppState where
  speakerStates : Speakers := []
  groups : Groups := []
deriving DecidableEq, Repr

/-! ## Ingest: the Shairport PCM callback (`main.cpp` lines 680-699)

`while (pending.size() >= kChunkBytes)`: carve a chunk off the front of
`pendingBytes`, push it to the back of `chunkQueue`, and pop the front of
the queue whenever its size exceeds `kMaxQueuedChunks`. -/

/-- `queue.emplace_back(chunk)` followed by the bound check
`if (queue.size() > kMaxQueuedChunks) queue.pop_front()`. -/
def pushBounded (queue : List Chunk) (chunk : Chunk) : List Chunk :=
  if kMaxQueuedChunks < (queue ++ [chunk]).length then (queue ++ [chunk]).tail
  else queue ++ [chunk]

def carveChunks (pending : List Nat) (queue : List Chunk) : List Nat × List Chunk :=
  if kChunkBytes ≤ pending.length then
    carveChunks (pending.drop kChunkBytes) (pushBounded queue (pending.take kChunkBytes))
  else
    (pending, queue)
termination_by pending.length
decreasing_by
  simp only [List.length_drop]
  have h1 : 0 < kChunkBytes := by decide
  omega

/-- The chunk sequence a byte buffer carves into (no queue bound):
used to state which chunks the bounded queue retains. -/
def allChunks (pending : List Nat) : List Chunk :=
  if kChunkBytes ≤ pending.length then
    pending.take kChunkBytes :: allChunks (pending.drop kChunkBytes)
  else
    []
termination_by pending.length
decreasing_by
  simp only [List.length_drop]
  have h1 : 0 < kChunkBytes := by decide
  omega

/-- The PCM callback installed in `createGroupFlow` (`main.cpp` 680-699):
ignore empty reads, drop data for vanished groups, append to
`pendingBytes`, carve chunks, reset the silence counter. -/
def ingestCallback (groupName : String) (gs : Groups) (data : List Nat) : Groups :=
  if data.length = 0 then gs else
  match alookup groupName gs with
  | none => gs
  | some g =>
      let pq := carveChunks (g.pendingBytes ++ data) g.chunkQueue
      aupdate groupName
        (fun g' => { g' with pendingBytes := pq.1, chunkQueue := pq.2,
                             consecutiveSilenceChunks := 0 }) gs

/-! ## RaopHostage capability selection (`RaopHostage.cpp` lines 20-36, 139-157)

`et` strings are modelled as `List Char`. -/

def sanitizeEt (raw : List Char) : List Char :=
  raw.filter (fun c => !c.isWhitespace)

def etSupportsToken (et : List Char) (token : Char) : Bool :=
  et.contains token

def etSupportsClear (et : List Char) : Bool :=
  etSupportsToken et '0'

def etSupportsRSA (et : List Char) : Bool :=
  etSupportsToken et '1' || etSupportsToken et '3' || etSupportsToken et '4'

def etSupportsFairPlay (et : List Char) : Bool :=
  etSupportsToken et '4'

inductive RaopCrypto
  | clear
  | rsa
deriving DecidableEq, Repr

/-- The `(crypto mode, enable_auth, et string handed to raopcl_create)`
triple computed by `RaopHostage::attemptConnect`. -/
structure ConnectParams where
  crypto : RaopCrypto
  enableAuth : Bool
  etSent : List Char
deriving DecidableEq, Repr

/-- Capability selection of `RaopHostage::attemptConnect`
(`RaopHostage.cpp` lines 144-155), applied to the already-resolved
`etValue`. -/
def selectCapabilities (etValue : List Char) (authFlag : Bool) : ConnectParams :=
  let supportClear := etSupportsClear etValue
  let supportRSA := etSupportsRSA etValue
  let supportFairPlay := etSupportsFairPlay etValue
  let enableAuth := authFlag && supportFairPlay
  let useRSA := (!supportClear && supportRSA) || enableAuth
  let cryptoMode := if useRSA then RaopCrypto.rsa else RaopCrypto.clear
  let etValue2 :=
    if enableAuth && !(etValue.contains '4') then
      (if etValue ≠ [] then etValue ++ [','] else etValue) ++ ['4']
    else etValue
  { crypto := cryptoMode, enableAuth := enableAuth, etSent := etValue2 }

/-- The `etValue` resolution at the top of `attemptConnect`
(`RaopHostage.cpp` lines 139-142): sanitize the override, fall back to
the stored capabilities when it sanitizes to empty. -/
def resolveEtValue (etCapabilities etOverride : List Char) : List Char :=
  let etValue := sanitizeEt etOverride
  if etValue = [] then etCapabilities else etValue

/-- A connection attempt as issued from `RaopHostage::connect`, which
passes `etCapabilities_` (already sanitized by the constructor) as the
override. -/
def hostageSelect (rawEt : List Char) (authFlag : Bool) : ConnectParams :=
  let etCapabilities := sanitizeEt rawEt
  selectCapabilities (resolveEtValue etCapabilities etCapabilities) authFlag

/-! ## RaopHostage guards (`RaopHostage.cpp` lines 104-129)

`RaopState` is the `connected_` / `raop_` pair; library outcomes are
oracles.  Each operation returns its result together with the number of
RAOP-library calls it performed. -/

structure RaopState where
  connected : Bool
  hasHandle : Bool
deriving DecidableEq, Repr

/-- `RaopHostage::acceptFrames`: `lib` is the value
`raopcl_accept_frames` would return. -/
def acceptFrames (s : RaopState) (lib : Bool) : Bool × Nat :=
  if !s.connected || !s.hasHandle then (false, 0) else (lib, 1)

/-- `RaopHostage::sendAudioChunk`: `size` is the byte length, `lib` the
value `raopcl_send_chunk` would return. -/
def sendAudioChunk (s : RaopState) (size : Nat) (lib : Bool) : Bool × Nat :=
  if !s.connected || !s.hasHandle then (false, 0)
  else
    let frames := size / 4
    if frames = 0 then (false, 0) else (lib, 1)

/-- Poll loop body of `RaopHostage::waitForFramesReady`; `lib i` is the
`raopcl_accept_frames` result on the i-th poll. -/
def waitPoll (s : RaopState) (lib : Nat → Bool) (i : Nat) : Nat → Bool × Nat
  | 0 => (false, i)
  | n + 1 =>
      let r := acceptFrames s (lib i)
      if r.1 then (true, i + r.2) else waitPoll s lib (i + r.2) n

/-- `RaopHostage::waitForFramesReady(maxAttempts, delayMillis)`. -/
def waitForFramesReady (s : RaopState) (maxAttempts : Nat) (lib : Nat → Bool) : Bool × Nat :=
  if !s.connected || !s.hasHandle then (false, 0)
  else waitPoll s lib 0 maxAttempts

/-! ## RaopHostage::connect (`RaopHostage.cpp` lines 53-78)

Oracles: `reach i` is the result of the i-th `ensureReachable` call,
`attemptOk flag` the result of `attemptConnect` in auth mode `flag`. -/

structure ConnectOracle where
  reach : Nat → Bool
  attemptOk : Bool → Bool

structure ConnectTrace where
  result : Bool
  reachCalls : Nat
  attemptsTried : List Bool
deriving DecidableEq, Repr

def hostageConnect (alreadyConnected preferAuth : Bool) (o : ConnectOracle) : ConnectTrace :=
  if alreadyConnected then { result := true, reachCalls := 0, attemptsTried := [] }
  else
    -- i = 0, authFlag = attemptOrder[0] = preferAuth
    if !o.reach 0 then { result := false, reachCalls := 1, attemptsTried := [] }
    else if o.attemptOk preferAuth then
      { result := true, reachCalls := 1, attemptsTried := [preferAuth] }
    else
      -- i = 1; break when attemptOrder[1] == attemptOrder[0]
      if (!preferAuth) = preferAuth then
        { result := false, reachCalls := 1, attemptsTried := [preferAuth] }
      else if !o.reach 1 then
        { result := false, reachCalls := 2, attemptsTried := [preferAuth] }
      else if o.attemptOk (!preferAuth) then
        { result := true, reachCalls := 2, attemptsTried := [preferAuth, !preferAuth] }
      else
        { result := false, reachCalls := 2, attemptsTried := [preferAuth, !preferAuth] }

/-! ## Streamer-level hostage operations

At the `main.cpp` level a live hostage always carries its handle, so the
streamer-facing operations reduce to the `connected` flag plus the
per-hostage oracles of `HostageB`. -/

/-- `waitForFramesReady` outcome for a snapshot hostage. -/
def waitForFramesReadyB (h : HostageB) : Bool :=
  h.connected && h.waitReady

/-- `sendAudioChunk(chunk.data(), chunk.size())` outcome for a snapshot
hostage (`frames = size / 4` must be positive). -/
def sendAudioChunkB (h : HostageB) (size : Nat) : Bool :=
  if !h.connected then false
  else if size / 4 = 0 then false
  else h.sendOk

/-! ## Streamer loop, one iteration (`main.cpp` lines 113-236) -/

/-- Snapshot of connected hostages for the group's members
(`main.cpp` lines 136-141 / 147-152). -/
def snapshotHostages (sps : Speakers) (ids : List String) : List (String × HostageB) :=
  ids.filterMap (fun id =>
    match alookup id sps with
    | some st =>
        match st.hostage with
        | some h => if h.connected then some (id, h) else none
        | none => none
    | none => none)

/-- Readiness phase (`main.cpp` lines 163-170): first connected hostage
failing `waitForFramesReady`, scanning in member order. -/
def findBlocked : List (String × HostageB) → Option String
  | [] => none
  | (id, h) :: rest =>
      if !h.connected then findBlocked rest
      else if !(waitForFramesReadyB h) then some id
      else findBlocked rest

/-- Outcome of the send phase: updated speaker registry plus the ids
whose send succeeded / failed / triggered a reconnect attempt /
reconnected successfully. -/
structure SendOut where
  speakers : Speakers
  sentOk : List String := []
  sendFailed : List String := []
  reconnectAttempted : List String := []
  reconnectSucceeded : List String := []
deriving Repr

/-- Send phase (`main.cpp` lines 197-220): send the chunk to each
snapshot hostage; on failure, re-look the speaker up and, when its info
is valid, disconnect and reconnect its hostage inline. -/
def sendLoop (chunk : Chunk) (sps : Speakers) : List (String × HostageB) → SendOut
  | [] => { speakers := sps }
  | (id, h) :: rest =>
      if !h.connected then sendLoop chunk sps rest
      else if sendAudioChunkB h chunk.length then
        let out := sendLoop chunk sps rest
        { out with sentOk := id :: out.sentOk }
      else
        -- reconnect attempt under the lock
        let attempted :=
          match alookup id sps with
          | some st =>
              match st.hostage with
              | some h2 =>
                  if st.info.ip ≠ "" && st.info.port > 0 then
                    some (h2.reconnectOk,
                      aupdate id (fun s : SpeakerState =>
                        { s with hostage := some { (s.hostage.getD h2) with
                            connected := h2.reconnectOk } }) sps)
                  else none
              | none => none
          | none => none
        match attempted with
        | some (succ, sps') =>
            let out := sendLoop chunk sps' rest
            { out with sendFailed := id :: out.sendFailed,
                       reconnectAttempted := id :: out.reconnectAttempted,
                       reconnectSucceeded :=
                         if succ then id :: out.reconnectSucceeded
                         else out.reconnectSucceeded }
        | none =>
            let out := sendLoop chunk sps rest
            { out with sendFailed := id :: out.sendFailed }

/-- Events and resulting state of one iteration of `groupStreamerLoop`. -/
structure IterOut where
  groups : Groups
  speakers : Speakers
  exited : Bool := false
  isSilence : Bool := false
  requeuedChunk : Option Chunk := none
  sentOk : List String := []
  sendFailed : List String := []
  reconnectAttempted : List String := []
  reconnectSucceeded : List String := []
deriving Repr

/-- One iteration of `groupStreamerLoop` (`main.cpp` lines 114-234):
pop a chunk or synthesize silence, snapshot connected hostages, run the
readiness phase, requeue a blocked non-silence chunk at the front, else
update silence tracking and run the send phase. -/
def streamIter (groupName : String) (gs : Groups) (sps : Speakers) : IterOut :=
  match alookup groupName gs with
  | none => { groups := gs, speakers := sps, exited := true }
  | some g =>
      if !g.streamerRunning then { groups := gs, speakers := sps, exited := true }
      else
        let popped :=
          match g.chunkQueue with
          | c :: rest =>
              (c, false,
               aupdate groupName (fun g' : GroupInfo => { g' with chunkQueue := rest }) gs,
               true)
          | [] =>
              (List.replicate kChunkBytes 0, true, gs, g.streamerRunning)
        let chunk := popped.1
        let isSilence := popped.2.1
        let gs1 := popped.2.2.1
        let runningLocal := popped.2.2.2
        let hostages := snapshotHostages sps g.speakerIds
        if chunk.isEmpty then
          if !runningLocal then { groups := gs1, speakers := sps, exited := true }
          else { groups := gs1, speakers := sps }
        else
          let requeue := (findBlocked hostages).isSome
          if requeue && !isSilence then
            { groups := aupdate groupName
                (fun g' => { g' with chunkQueue := chunk :: g'.chunkQueue }) gs1,
              speakers := sps,
              isSilence := isSilence,
              requeuedChunk := some chunk }
          else
            let gs2 := aupdate groupName
              (fun g' : GroupInfo => { g' with consecutiveSilenceChunks :=
                  if isSilence then g'.consecutiveSilenceChunks + 1 else 0 }) gs1
            let out := sendLoop chunk sps hostages
            { groups := gs2,
              speakers := out.speakers,
              isSilence := isSilence,
              sentOk := out.sentOk,
              sendFailed := out.sendFailed,
              reconnectAttempted := out.reconnectAttempted,
              reconnectSucceeded := out.reconnectSucceeded }

/-! ## Discovery snapshot merge (`main.cpp` lines 863-885) -/

/-- First pass of the discovery callback: upsert each snapshot speaker
(`speakerStates[speaker.id]` default-constructs a row), set its info and
`connected = true`. -/
def upsertSpeakers (sps : Speakers) (snapshot : List Speaker) : Speakers :=
  snapshot.foldl (fun acc sp =>
    match alookup sp.id acc with
    | some _ => aupdate sp.id (fun st => { st with info := sp, connected := true }) acc
    | none => acc ++ [(sp.id, { info := sp, connected := true,
                                reserved := false, hostage := none })]) sps

/-- Full discovery callback: upsert pass, then mark every speaker absent
from the snapshot offline and drop its hostage, collecting the
"Disconnected (offline)" log lines. -/
def applySnapshot (sps : Speakers) (snapshot : List Speaker) : Speakers × List String :=
  let seen := snapshot.map (·.id)
  let sps1 := upsertSpeakers sps snapshot
  let sps2 := sps1.map (fun kv =>
    (kv.1, if seen.contains kv.1 then kv.2
           else { kv.2 with connected := false, hostage := none }))
  let logs := sps1.filterMap (fun kv =>
    if !seen.contains kv.1 && kv.2.hostage.isSome then
      some ("Disconnected (offline): " ++ kv.1)
    else none)
  (sps2, logs)

/-! ## Port allocation (`main.cpp` lines 317-328) -/

/-- `allocatePortLocked`: scan `[kBaseGroupPort, kMaxGroupPort)` in
order, return the first port used by no group, `-1` if none is free. -/
def allocatePortLocked (gs : Groups) : Int :=
  let used := gs.map (fun kv => kv.2.port)
  match (List.range' 6000 14000).find? (fun p : Nat => !used.contains ((p : Int))) with
  | some p => ((p : Int))
  | none => -1

/-! ## createGroupFlow (`main.cpp` lines 521-714)

Terminal I/O becomes parameters: `name` the typed group name,
`selection` the parsed comma-separated index tokens, `interfaces` the
discovered interface list, `ifaceChoice` the parsed interface index
(`none` when the line is empty or unparsable).  `mkHostage id` is the
`HostageB` a fresh `RaopHostage` for `id` behaves as after its
`connect()` call (its `connected` field is that call's result). -/

inductive CreateResult
  | cancelledEmptyName
  | cancelledDuplicate
  | cancelledNoAvailable
  | cancelledNoneSelected
  | cancelledNoInterfaces
  | cancelledNoInterfaceSelected
  | cancelledInvalidInterface
  | cancelledNoPort
  | created
deriving DecidableEq, Repr

/-- The numbered list of selectable speakers: connected and unreserved,
in registry order, indices starting at 1 (`main.cpp` lines 545-555). -/
def availableSpeakers (sps : Speakers) : List (Nat × String) :=
  (sps.filter (fun kv => kv.2.connected && !kv.2.reserved)).enum.map
    (fun e => (e.1 + 1, e.2.1))

/-- Resolve the typed index tokens against the numbered list
(`main.cpp` lines 573-591); unmatched tokens are ignored. -/
def resolveSelection (available : List (Nat × String)) (selection : List Int) : List String :=
  selection.filterMap (fun tok =>
    (available.find? (fun e => (e.1 : Int) = tok)).map (·.2))

/-- Hostage-connection pass of group creation (`main.cpp` lines
662-677): construct and connect a hostage for each chosen member that
has none and a valid address. -/
def connectHostages (sps : Speakers) (chosenIds : List String)
    (mkHostage : String → HostageB) : Speakers :=
  chosenIds.foldl (fun acc id =>
    match alookup id acc with
    | some st =>
        if st.hostage.isNone &&
           (st.info.ip ≠ "" && st.info.ip ≠ "0.0.0.0" && st.info.port > 0) then
          aupdate id (fun s => { s with hostage := some (mkHostage id) }) acc
        else acc
    | none => acc) sps

def createGroupFlow (st : AppState) (name : String) (selection : List Int)
    (interfaces : List String) (ifaceChoice : Option Nat)
    (mkHostage : String → HostageB) : AppState × CreateResult :=
  if name = "" then (st, .cancelledEmptyName)
  else if (alookup name st.groups).isSome then (st, .cancelledDuplicate)
  else
    let available := availableSpeakers st.speakerStates
    if available.isEmpty then (st, .cancelledNoAvailable)
    else
      let chosenIds := resolveSelection available selection
      if chosenIds.isEmpty then (st, .cancelledNoneSelected)
      else if interfaces.isEmpty then (st, .cancelledNoInterfaces)
      else
        match ifaceChoice with
        | none => (st, .cancelledNoInterfaceSelected)
        | some ifaceIndex =>
            if h : interfaces.length ≤ ifaceIndex then (st, .cancelledInvalidInterface)
            else
              let port := allocatePortLocked st.groups
              if port < 0 then (st, .cancelledNoPort)
              else
                let sps' := connectHostages st.speakerStates chosenIds mkHostage
                let info : GroupInfo :=
                  { name := name, port := port,
                    parentInterface := interfaces.get ⟨ifaceIndex, by omega⟩,
                    speakerIds := chosenIds,
                    streamerRunning := true }
                let sps'' := chosenIds.foldl (fun acc id =>
                  aupdate id (fun s => { s with reserved := true }) acc) sps'
                ({ speakerStates := sps'', groups := aupsert name info st.groups }, .created)

/-! ## deleteGroupFlow (`main.cpp` lines 716-779) -/

def deleteGroupFlow (st : AppState) (name : String) : AppState × Bool :=
  match alookup name st.groups with
  | none => (st, false)
  | some g =>
      -- streamerRunning := false, join streamer, stop process, then:
      let sps' := g.speakerIds.foldl (fun acc id =>
        aupdate id (fun s => { s with reserved := false, hostage := none }) acc)
        st.speakerStates
      ({ speakerStates := sps', groups := aerase name st.groups }, true)

/-! ## Operation traces over the shared state -/

inductive AppOp
  | create (name : String) (selection : List Int) (interfaces : List String)
      (ifaceChoice : Option Nat) (mkHostage : String → HostageB)
  | delete (name : String)
  | ingest (groupName : String) (data : List Nat)
  | stream (groupName : String)
  | discover (snapshot : List Speaker)

def applyOp (st : AppState) : AppOp → AppState
  | .create name sel ifs ic mk => (createGroupFlow st name sel ifs ic mk).1
  | .delete name => (deleteGroupFlow st name).1
  | .ingest gname data => { st with groups := ingestCallback gname st.groups data }
  | .stream gname =>
      let out := streamIter gname st.groups st.speakerStates
      { speakerStates := out.speakers, groups := out.groups }
  | .discover snapshot =>
      { st with speakerStates := (applySnapshot st.speakerStates snapshot).1 }

def runOps (ops : List AppOp) : AppState :=
  ops.foldl applyOp {}

/-! ## Association-list lemmas -/

theorem alookup_aupdate {α : Type} (k id : String) (f : α → α) (m : List (String × α)) :
    alookup id (aupdate k f m) = if k = id then (alookup id m).map f else alookup id m := by
  induction m with
  | nil => simp [alookup, aupdate]
  | cons kv rest ih =>
      obtain ⟨k', v⟩ := kv
      by_cases hk : k' = k
      · subst hk
        by_cases hid : k' = id
        · subst hid
          simp [alookup, aupdate]
        · simp [alookup, aupdate, hid]
      · by_cases hid : k' = id
        · subst hid
          simp [alookup, aupdate, hk, Ne.symm hk]
        · simp [alookup, aupdate, hk, hid, ih]

theorem alookup_aupdate_self {α : Type} (k : String) (f : α → α) (m : List (String × α)) :
    alookup k (aupdate k f m) = (alookup k m).map f := by
  simp [alookup_aupdate]

theorem alookup_aupdate_ne {α : Type} {k id : String} (h : k ≠ id) (f : α → α)
    (m : List (String × α)) : alookup id (aupdate k f m) = alookup id m := by
  simp [alookup_aupdate, h]

theorem alookup_append {α : Type} (k : String) (m₁ m₂ : List (String × α)) :
    alookup k (m₁ ++ m₂) =
      match alookup k m₁ with
      | some v => some v
      | none => alookup k m₂ := by
  induction m₁ with
  | nil => simp [alookup]
  | cons kv rest ih =>
      obtain ⟨k', v⟩ := kv
      by_cases hk : k' = k
      · simp [alookup, hk]
      · simp [alookup, hk, ih]

theorem alookup_mem {α : Type} {k : String} {v : α} {m : List (String × α)}
    (h : alookup k m = some v) : (k, v) ∈ m := by
  induction m with
  | nil => simp [alookup] at h
  | cons kv rest ih =>
      obtain ⟨k', v'⟩ := kv
      by_cases hk : k' = k
      · subst hk
        simp [alookup] at h
        simp [h]
      · simp [alookup, hk] at h
        simp [ih h]

theorem aerase_sublist {α : Type} (k : String) (m : List (String × α)) :
    (aerase k m).Sublist m := by
  induction m with
  | nil => simp [aerase]
  | cons kv rest ih =>
      obtain ⟨k', v⟩ := kv
      by_cases hk : k' = k
      · simpa [aerase, hk] using List.sublist_cons_self _ _
      · have h2 := List.Sublist.cons₂ (k', v) ih
        simp only [aerase, if_neg hk]
        exact h2

/-! ## Carve-loop lemmas (claim C1) -/

theorem pushBounded_length_le (queue : List Chunk) (chunk : Chunk)
    (hq : queue.length ≤ kMaxQueuedChunks) :
    (pushBounded queue chunk).length ≤ kMaxQueuedChunks := by
  rw [pushBounded]
  split
  · next h =>
      simp only [List.length_tail, List.length_append, List.length_cons, List.length_nil]
      omega
  · next h =>
      simp only [List.length_append, List.length_cons, List.length_nil] at h ⊢
      omega

theorem pushBounded_suffix (queue : List Chunk) (chunk : Chunk) :
    (pushBounded queue chunk) <:+ queue ++ [chunk] := by
  rw [pushBounded]
  split
  · exact List.tail_suffix _
  · exact List.suffix_refl _

theorem carveChunks_length_le (pending : List Nat) (queue : List Chunk)
    (hq : queue.length ≤ kMaxQueuedChunks) :
    (carveChunks pending queue).2.length ≤ kMaxQueuedChunks := by
  induction pending, queue using carveChunks.induct with
  | case1 pending queue hlen ih =>
      rw [carveChunks, if_pos hlen]
      exact ih (pushBounded_length_le _ _ hq)
  | case2 pending queue hlen =>
      rw [carveChunks, if_neg hlen]
      exact hq

theorem carveChunks_suffix (pending : List Nat) (queue : List Chunk) :
    (carveChunks pending queue).2 <:+ queue ++ allChunks pending := by
  induction pending, queue using carveChunks.induct with
  | case1 pending queue hlen ih =>
      rw [carveChunks, if_pos hlen]
      rw [allChunks, if_pos hlen]
      refine ih.trans ?_
      obtain ⟨s, hs⟩ := pushBounded_suffix queue (pending.take kChunkBytes)
      refine ⟨s, ?_⟩
      rw [← List.append_assoc, hs]
      simp
  | case2 pending queue hlen =>
      rw [carveChunks, if_neg hlen]
      rw [allChunks, if_neg hlen]
      simp

theorem carveChunks_replicate_length (n : Nat) (q : List Chunk)
    (hq : q.length + n ≤ kMaxQueuedChunks) :
    (carveChunks (List.replicate (n * kChunkBytes) 0) q).2.length = q.length + n := by
  induction n generalizing q with
  | zero =>
      rw [carveChunks, if_neg (by decide)]
      simp
  | succ k ih =>
      rw [carveChunks]
      have hlen : kChunkBytes ≤ (List.replicate ((k + 1) * kChunkBytes) 0).length := by
        simp only [List.length_replicate, Nat.succ_mul]
        omega
      rw [if_pos hlen]
      rw [List.drop_replicate]
      have hsub : (k + 1) * kChunkBytes - kChunkBytes = k * kChunkBytes := by
        simp [Nat.succ_mul]
      rw [hsub]
      have hcond : ¬ kMaxQueuedChunks <
          (q ++ [List.take kChunkBytes (List.replicate ((k + 1) * kChunkBytes) 0)]).length := by
        simp only [List.length_append, List.length_cons, List.length_nil]
        omega
      have hpb : pushBounded q (List.take kChunkBytes (List.replicate ((k + 1) * kChunkBytes) 0)) =
          q ++ [List.take kChunkBytes (List.replicate ((k + 1) * kChunkBytes) 0)] := by
        rw [pushBounded, if_neg hcond]
      rw [hpb]
      have := ih (q ++ [List.take kChunkBytes (List.replicate ((k + 1) * kChunkBytes) 0)])
        (by simp only [List.length_append, List.length_cons, List.length_nil]; omega)
      simp only [List.length_append, List.length_cons, List.length_nil] at this
      rw [this]
      omega

/-! ## Claim C1 -/

/-- Concrete empty group used to exercise the ingest path. -/
def c1Group : GroupInfo :=
  { name := "g", port := 6000, speakerIds := ["A"], streamerRunning := true }

/-- 17 chunks' worth of silence bytes, the C1 counterexample input. -/
def c1Data : List Nat := List.replicate (17 * kChunkBytes) 0

/-- Queue length reached by one ingest call on a group present in the
map (`ingestCallback` unfolded once). -/
theorem ingest_queue_length (gname : String) (gs : Groups) (data : List Nat)
    (g : GroupInfo) (hlen : ¬ data.length = 0) (hlook : alookup gname gs = some g) :
    (alookup gname (ingestCallback gname gs data)).map (fun g' => g'.chunkQueue.length) =
      some ((carveChunks (g.pendingBytes ++ data) g.chunkQueue).2.length) := by
  rw [ingestCallback, if_neg hlen, hlook, alookup_aupdate_self, hlook]
  rfl

/-- C1 counterexample: one ingest call delivering 17 chunks' worth of
PCM to a fresh group leaves 17 chunks in the queue — more than the 16
the claim allows — because the code's bound `kMaxQueuedChunks` is 128,
not 16. -/
theorem claim_C1_counterexample :
    (alookup "g" (ingestCallback "g" [("g", c1Group)] c1Data)).map
      (fun g' => g'.chunkQueue.length) = some 17 ∧ ¬ (17 ≤ 16) := by
  constructor
  · have hlook : alookup "g" [("g", c1Group)] = some c1Group := by rfl
    have hlen : ¬ c1Data.length = 0 := by
      rw [show c1Data = List.replicate (17 * kChunkBytes) 0 from rfl]
      simp only [List.length_replicate]
      decide
    have h := ingest_queue_length "g" [("g", c1Group)] c1Data c1Group hlen hlook
    rw [show c1Group.pendingBytes ++ c1Data = c1Data from rfl,
        show c1Group.chunkQueue = ([] : List Chunk) from rfl] at h
    rw [h]
    have hlen17 : (carveChunks c1Data []).2.length = 17 := by
      rw [show c1Data = List.replicate (17 * kChunkBytes) 0 from rfl]
      have h17 := carveChunks_replicate_length 17 [] (by decide)
      simpa using h17
    rw [hlen17]
  · decide

/-- C1 (amended): after any ingest call, and along any sequence of
ingest calls, the group's chunk queue holds at most
`kMaxQueuedChunks = 128` chunks (not 16); overflow pops the front, so
the queue that remains is a suffix (the newest chunks) of the old queue
followed by the newly carved chunks. -/
theorem claim_C1_amended :
    (∀ (gname : String) (gs : Groups) (data : List Nat) (g : GroupInfo),
      alookup gname gs = some g →
      g.chunkQueue.length ≤ kMaxQueuedChunks →
      ∀ g', alookup gname (ingestCallback gname gs data) = some g' →
        g'.chunkQueue.length ≤ kMaxQueuedChunks ∧
        (data ≠ [] →
          g'.chunkQueue <:+ g.chunkQueue ++ allChunks (g.pendingBytes ++ data))) ∧
    (∀ (gname : String) (datas : List (List Nat)) (gs : Groups),
      (∀ g, alookup gname gs = some g → g.chunkQueue.length ≤ kMaxQueuedChunks) →
      ∀ g', alookup gname (datas.foldl (ingestCallback gname) gs) = some g' →
        g'.chunkQueue.length ≤ kMaxQueuedChunks) := by
  have step : ∀ (gname : String) (gs : Groups) (data : List Nat) (g : GroupInfo),
      alookup gname gs = some g →
      g.chunkQueue.length ≤ kMaxQueuedChunks →
      ∀ g', alookup gname (ingestCallback gname gs data) = some g' →
        g'.chunkQueue.length ≤ kMaxQueuedChunks ∧
        (data ≠ [] →
          g'.chunkQueue <:+ g.chunkQueue ++ allChunks (g.pendingBytes ++ data)) := by
    intro gname gs data g hlook hle g' hlook'
    rw [ingestCallback] at hlook'
    by_cases hdata : data.length = 0
    · rw [if_pos hdata, hlook] at hlook'
      cases hlook'
      refine ⟨hle, fun hne => absurd (List.length_eq_zero.mp hdata) hne⟩
    · rw [if_neg hdata, hlook] at hlook'
      rw [alookup_aupdate_self, hlook] at hlook'
      simp only [Option.map_some', Option.some.injEq] at hlook'
      subst hlook'
      exact ⟨carveChunks_length_le _ _ hle, fun _ => carveChunks_suffix _ _⟩
  refine ⟨step, ?_⟩
  intro gname datas
  induction datas with
  | nil =>
      intro gs hinv g' hlook'
      exact hinv g' hlook'
  | cons d rest ih =>
      intro gs hinv g' hlook'
      simp only [List.foldl_cons] at hlook'
      refine ih (ingestCallback gname gs d) ?_ g' hlook'
      intro g hlook
      by_cases hpresent : (alookup gname gs).isSome
      · obtain ⟨g0, hg0⟩ := Option.isSome_iff_exists.mp hpresent
        exact (step gname gs d g0 hg0 (hinv g0 hg0) g hlook).1
      · rw [ingestCallback] at hlook
        by_cases hd : d.length = 0
        · rw [if_pos hd] at hlook
          exact hinv g hlook
        · rw [if_neg hd] at hlook
          cases hnone : alookup gname gs with
          | some g0 => simp [hnone] at hpresent
          | none => rw [hnone] at hlook; exact hinv g hlook

/-- Full row produced by one ingest call on a group present in the map
(`ingestCallback` unfolded once). -/
theorem ingestCallback_lookup_some (gname : String) (gs : Groups) (data : List Nat)
    (g : GroupInfo) (hlen : ¬ data.length = 0) (hlook : alookup gname gs = some g) :
    alookup gname (ingestCallback gname gs data) = some
      { g with pendingBytes := (carveChunks (g.pendingBytes ++ data) g.chunkQueue).1,
               chunkQueue := (carveChunks (g.pendingBytes ++ data) g.chunkQueue).2,
               consecutiveSilenceChunks := 0 } := by
  rw [ingestCallback, if_neg hlen, hlook, alookup_aupdate_self, hlook]
  rfl

/-- The group row produced by the C1 counterexample ingest call. -/
def c1Result : GroupInfo :=
  { c1Group with
    pendingBytes := (carveChunks (c1Group.pendingBytes ++ c1Data) c1Group.chunkQueue).1,
    chunkQueue := (carveChunks (c1Group.pendingBytes ++ c1Data) c1Group.chunkQueue).2,
    consecutiveSilenceChunks := 0 }

/-- C1 witness: the amended bound applied to the concrete 17-chunk
ingest call. -/
theorem claim_C1_witness :
    c1Group.chunkQueue.length ≤ kMaxQueuedChunks ∧ c1Data ≠ [] ∧
    c1Result.chunkQueue.length ≤ kMaxQueuedChunks ∧
    c1Result.chunkQueue <:+ c1Group.chunkQueue ++ allChunks (c1Group.pendingBytes ++ c1Data) := by
  have hne : c1Data ≠ [] := by
    intro h
    have hlen := congrArg List.length h
    rw [show c1Data = List.replicate (17 * kChunkBytes) 0 from rfl] at hlen
    simp only [List.length_replicate, List.length_nil] at hlen
    exact absurd hlen (by decide)
  have hlen0 : ¬ c1Data.length = 0 := by
    intro h
    exact hne (List.length_eq_zero.mp h)
  have hlookR : alookup "g" (ingestCallback "g" [("g", c1Group)] c1Data) = some c1Result :=
    ingestCallback_lookup_some "g" [("g", c1Group)] c1Data c1Group hlen0 (by rfl)
  have h := (claim_C1_amended.1 "g" [("g", c1Group)] c1Data c1Group (by rfl)
    (by decide) c1Result hlookR)
  exact ⟨by decide, hne, h.1, h.2 hne⟩

/-! ## Claim C4: capability selection -/

/-- C4 (confirmed): for every sanitized `et` and auth flag, the attempt
computes `enable_auth = attempt_auth ∧ support_fp`, picks RSA crypto
exactly when `(¬support_clear ∧ support_rsa) ∨ enable_auth`, and appends
",4" to the et string sent to the library exactly when `enable_auth`
holds and `'4'` is absent (a condition that, `support_fp` being
`'4' ∈ et`, never fires); for `et = "4"` with auth attempted first the
result is RSA crypto, `enable_auth = true`, et-sent `"4"`. -/
theorem claim_C4 :
    (∀ (etValue : List Char) (authFlag : Bool),
      (selectCapabilities etValue authFlag).enableAuth =
          (authFlag && etSupportsFairPlay etValue) ∧
      ((selectCapabilities etValue authFlag).crypto = RaopCrypto.rsa ↔
        ((¬ etSupportsClear etValue = true ∧ etSupportsRSA etValue = true) ∨
          (selectCapabilities etValue authFlag).enableAuth = true)) ∧
      ((selectCapabilities etValue authFlag).etSent ≠ etValue ↔
        ((selectCapabilities etValue authFlag).enableAuth = true ∧
          etValue.contains '4' = false)) ∧
      (selectCapabilities etValue authFlag).etSent = etValue) ∧
    hostageSelect ['4'] true =
      { crypto := RaopCrypto.rsa, enableAuth := true, etSent := ['4'] } := by
  constructor
  · intro etValue authFlag
    have hnever : ((authFlag && etSupportsFairPlay etValue) &&
        !(etValue.contains '4')) = false := by
      cases hfp : etSupportsFairPlay etValue with
      | false => simp [hfp]
      | true =>
          have h4 : etValue.contains '4' = true := hfp
          simp only [hfp, Bool.and_true, Bool.not_eq_true']
          cases authFlag with
          | false => simp
          | true => simpa using List.mem_of_elem_eq_true h4
    refine ⟨rfl, ?_, ?_, ?_⟩
    · simp only [selectCapabilities]
      cases hclear : etSupportsClear etValue <;>
        cases hrsa : etSupportsRSA etValue <;>
          cases hfp : etSupportsFairPlay etValue <;>
            cases authFlag <;>
              simp [hclear, hrsa, hfp]
    · simp only [selectCapabilities, hnever]
      simp only [if_false, Bool.false_eq_true]
      constructor
      · intro h
        exact absurd rfl h
      · rintro ⟨hauth, h4⟩
        exfalso
        have : (authFlag && etSupportsFairPlay etValue) = true := hauth
        rw [this, h4] at hnever
        simp at hnever
    · simp only [selectCapabilities, hnever]
      simp
  · rfl

/-- C4 witness: the decision-table theorem applied at the concrete
input `et = "0"`, auth off. -/
theorem claim_C4_witness :
    (selectCapabilities ['0'] false).etSent = ['0'] ∧
    ((selectCapabilities ['4'] true).crypto = RaopCrypto.rsa) :=
  ⟨(claim_C4.1 ['0'] false).2.2.2,
   (claim_C4.1 ['4'] true).2.1.mpr (Or.inr (by rfl))⟩

/-! ## Claim C10: disconnected-hostage guards -/

/-- C10 (confirmed): with `connected_` false or a null protocol handle,
`acceptFrames`, `sendAudioChunk` and `waitForFramesReady` all return
false without a single RAOP library call; and `sendAudioChunk` rejects
byte lengths below 4 (`frames = len/4` not positive) without calling
the library's send. -/
theorem claim_C10 :
    (∀ (s : RaopState), s.connected = false ∨ s.hasHandle = false →
      (∀ lib, acceptFrames s lib = (false, 0)) ∧
      (∀ size lib, sendAudioChunk s size lib = (false, 0)) ∧
      (∀ n f, waitForFramesReady s n f = (false, 0))) ∧
    (∀ (s : RaopState) (size : Nat) (lib : Bool), size < 4 →
      sendAudioChunk s size lib = (false, 0)) := by
  constructor
  · intro s hs
    have hcond : (!s.connected || !s.hasHandle) = true := by
      rcases hs with h | h <;> simp [h]
    refine ⟨?_, ?_, ?_⟩
    · intro lib
      rw [acceptFrames, if_pos hcond]
    · intro size lib
      rw [sendAudioChunk, if_pos hcond]
    · intro n f
      rw [waitForFramesReady, if_pos hcond]
  · intro s size lib hsize
    by_cases hcond : (!s.connected || !s.hasHandle) = true
    · rw [sendAudioChunk, if_pos hcond]
    · rw [sendAudioChunk, if_neg hcond]
      have hframes : size / 4 = 0 := Nat.div_eq_of_lt hsize
      simp [hframes]

/-- C10 witness: the guards applied at the concrete disconnected state
and at a 3-byte send on a connected one. -/
theorem claim_C10_witness :
    acceptFrames { connected := false, hasHandle := true } true = (false, 0) ∧
    sendAudioChunk { connected := true, hasHandle := true } 3 true = (false, 0) :=
  ⟨(claim_C10.1 { connected := false, hasHandle := true } (Or.inl rfl)).1 true,
   claim_C10.2 { connected := true, hasHandle := true } 3 true (by decide)⟩

/-! ## Claim C6: connect() attempt sequencing -/

/-- C6 counterexample oracle: the first reachability probe fails, a
second probe and every protocol attempt would succeed. -/
def c6Oracle : ConnectOracle :=
  { reach := fun i => decide (i ≠ 0), attemptOk := fun _ => true }

/-- C6 counterexample: with the first reachability probe failing,
`connect()` returns false after zero `attemptConnect` calls — the
second attempt (which would have succeeded) is never tried, so a
reachability failure aborts the whole `connect()`, not just the current
attempt. -/
theorem claim_C6_counterexample :
    hostageConnect false true c6Oracle =
      { result := false, reachCalls := 1, attemptsTried := [] } ∧
    c6Oracle.attemptOk false = true ∧ c6Oracle.reach 1 = true := by
  refine ⟨?_, rfl, rfl⟩
  rfl

/-- C6 (amended): `connect()` tries up to two attempts in the order
`[prefer_auth, ¬prefer_auth]` and returns true at the first success,
but a reachability-probe failure aborts the whole call — it returns
false immediately without trying the remaining attempt; only a
protocol-level `attemptConnect` failure advances to the second
attempt. -/
theorem claim_C6_amended :
    ∀ (preferAuth : Bool) (o : ConnectOracle),
      (o.reach 0 = false →
        hostageConnect false preferAuth o =
          { result := false, reachCalls := 1, attemptsTried := [] }) ∧
      (o.reach 0 = true → o.attemptOk preferAuth = true →
        hostageConnect false preferAuth o =
          { result := true, reachCalls := 1, attemptsTried := [preferAuth] }) ∧
      (o.reach 0 = true → o.attemptOk preferAuth = false → o.reach 1 = false →
        hostageConnect false preferAuth o =
          { result := false, reachCalls := 2, attemptsTried := [preferAuth] }) ∧
      (o.reach 0 = true → o.attemptOk preferAuth = false → o.reach 1 = true →
        hostageConnect false preferAuth o =
          { result := o.attemptOk (!preferAuth), reachCalls := 2,
            attemptsTried := [preferAuth, !preferAuth] }) := by
  intro preferAuth o
  have hdedup : ((!preferAuth) = preferAuth) = False := by
    cases preferAuth <;> simp
  refine ⟨?_, ?_, ?_, ?_⟩
  · intro h0
    rw [hostageConnect]
    simp [h0]
  · intro h0 ha
    rw [hostageConnect]
    simp [h0, ha]
  · intro h0 ha h1
    rw [hostageConnect]
    simp [h0, ha, h1, hdedup]
  · intro h0 ha h1
    rw [hostageConnect]
    simp [h0, ha, h1, hdedup]
    cases hb : o.attemptOk (!preferAuth) <;> simp [hb]

/-- C6 witness: the amended attempt-sequencing theorem applied at a
concrete oracle whose first probe succeeds and whose auth-on attempt
succeeds. -/
theorem claim_C6_witness :
    hostageConnect false true
        { reach := fun _ => true, attemptOk := fun _ => true } =
      { result := true, reachCalls := 1, attemptsTried := [true] } :=
  (claim_C6_amended true { reach := fun _ => true, attemptOk := fun _ => true }).2.1
    rfl rfl

/-! ## Discovery-merge lemmas (claims C7, C3) -/

theorem alookup_map_keyed {α : Type} (f : String → α → α) (id : String)
    (l : List (String × α)) :
    alookup id (l.map (fun kv => (kv.1, f kv.1 kv.2))) = (alookup id l).map (f id) := by
  induction l with
  | nil => simp [alookup]
  | cons kv rest ih =>
      obtain ⟨k', v⟩ := kv
      by_cases hk : k' = id
      · subst hk
        simp [alookup]
      · simp [alookup, hk, ih]

/-- One upsert step of the discovery callback's first loop. -/
def upsertOne (acc : Speakers) (sp : Speaker) : Speakers :=
  match alookup sp.id acc with
  | some _ => aupdate sp.id (fun st => { st with info := sp, connected := true }) acc
  | none => acc ++ [(sp.id, { info := sp, connected := true,
                              reserved := false, hostage := none })]

theorem upsertSpeakers_eq_foldl (sps : Speakers) (snapshot : List Speaker) :
    upsertSpeakers sps snapshot = snapshot.foldl upsertOne sps := by
  rfl

theorem alookup_upsertOne_ne {id : String} {sp : Speaker} (h : sp.id ≠ id)
    (acc : Speakers) : alookup id (upsertOne acc sp) = alookup id acc := by
  rw [upsertOne]
  cases hl : alookup sp.id acc with
  | some st => exact alookup_aupdate_ne h _ _
  | none =>
      rw [alookup_append]
      cases hl2 : alookup id acc with
      | some st => rfl
      | none => simp [alookup, h]

theorem alookup_upsertSpeakers_not_mem (snapshot : List Speaker) (sps : Speakers)
    (id : String) (h : id ∉ snapshot.map Speaker.id) :
    alookup id (upsertSpeakers sps snapshot) = alookup id sps := by
  induction snapshot generalizing sps with
  | nil => rfl
  | cons sp rest ih =>
      rw [upsertSpeakers_eq_foldl, List.foldl_cons, ← upsertSpeakers_eq_foldl]
      simp only [List.map_cons, List.mem_cons, not_or] at h
      rw [ih (upsertOne sps sp) h.2]
      exact alookup_upsertOne_ne (fun heq => h.1 heq.symm) sps

theorem alookup_upsertSpeakers_mem (snapshot : List Speaker) (sps : Speakers)
    (sp : Speaker) (hmem : sp ∈ snapshot) (hnd : (snapshot.map Speaker.id).Nodup) :
    alookup sp.id (upsertSpeakers sps snapshot) = some
      (match alookup sp.id sps with
       | some st => { st with info := sp, connected := true }
       | none => { info := sp, connected := true, reserved := false, hostage := none }) := by
  induction snapshot generalizing sps with
  | nil => cases hmem
  | cons x rest ih =>
      rw [upsertSpeakers_eq_foldl, List.foldl_cons, ← upsertSpeakers_eq_foldl]
      simp only [List.map_cons, List.nodup_cons] at hnd
      rcases List.mem_cons.mp hmem with heq | hrest
      · subst heq
        have hnotin : sp.id ∉ rest.map Speaker.id := hnd.1
        rw [alookup_upsertSpeakers_not_mem rest _ sp.id hnotin]
        rw [upsertOne]
        cases hl : alookup sp.id sps with
        | some st =>
            rw [alookup_aupdate_self, hl]
            rfl
        | none =>
            rw [alookup_append, hl]
            simp [alookup]
      · have hne : x.id ≠ sp.id := by
          intro hcontr
          exact hnd.1 (hcontr ▸ List.mem_map_of_mem Speaker.id hrest)
        rw [ih (upsertOne sps x) hrest hnd.2]
        rw [alookup_upsertOne_ne hne sps]

theorem alookup_upsertSpeakers_fields (snapshot : List Speaker) (sps : Speakers)
    (id : String) (st : SpeakerState) (h : alookup id sps = some st) :
    ∃ st', alookup id (upsertSpeakers sps snapshot) = some st' ∧
      st'.hostage = st.hostage ∧ st'.reserved = st.reserved := by
  induction snapshot generalizing sps st with
  | nil => exact ⟨st, h, rfl, rfl⟩
  | cons x rest ih =>
      rw [upsertSpeakers_eq_foldl, List.foldl_cons, ← upsertSpeakers_eq_foldl]
      by_cases hx : x.id = id
      · subst hx
        have hstep : alookup x.id (upsertOne sps x) =
            some { st with info := x, connected := true } := by
          rw [upsertOne, h]
          show alookup x.id
            (aupdate x.id (fun st => { st with info := x, connected := true }) sps) = _
          rw [alookup_aupdate_self, h]
          rfl
        obtain ⟨st', hlook', hh, hr⟩ := ih (upsertOne sps x) _ hstep
        exact ⟨st', hlook', hh, hr⟩
      · obtain ⟨st', hlook', hh, hr⟩ := ih (upsertOne sps x) st
          (by rw [alookup_upsertOne_ne hx]; exact h)
        exact ⟨st', hlook', hh, hr⟩

theorem alookup_offline_map (seen : List String) (id : String) (l : Speakers) :
    alookup id (l.map (fun kv =>
      (kv.1, if seen.contains kv.1 then kv.2
             else { kv.2 with connected := false, hostage := none }))) =
      (alookup id l).map (fun v =>
        if seen.contains id then v
        else { v with connected := false, hostage := none }) := by
  induction l with
  | nil => simp [alookup]
  | cons kv rest ih =>
      obtain ⟨k', v⟩ := kv
      by_cases hk : k' = id
      · subst hk
        simp only [List.map_cons, alookup, if_pos rfl]
        rfl
      · simp only [List.map_cons, alookup, if_neg hk]
        exact ih

theorem applySnapshot_offline (sps : Speakers) (snapshot : List Speaker)
    (id : String) (st : SpeakerState) (hlook : alookup id sps = some st)
    (h : id ∉ snapshot.map (fun sp => sp.id)) :
    alookup id (applySnapshot sps snapshot).1 =
      some { st with connected := false, hostage := none } ∧
    (st.hostage.isSome = true →
      ("Disconnected (offline): " ++ id) ∈ (applySnapshot sps snapshot).2) := by
  have hc : (snapshot.map (fun sp => sp.id)).contains id = false := by simpa using h
  have hst1 : alookup id (upsertSpeakers sps snapshot) = alookup id sps :=
    alookup_upsertSpeakers_not_mem snapshot sps id (by simpa using h)
  constructor
  · simp only [applySnapshot]
    rw [alookup_offline_map, hst1, hlook, Option.map_some', if_neg (by rw [hc]; exact Bool.false_ne_true)]
  · intro hh
    simp only [applySnapshot]
    refine List.mem_filterMap.mpr ⟨(id, st), ?_, ?_⟩
    · exact alookup_mem (hst1.trans hlook)
    · show (if !(snapshot.map (fun sp => sp.id)).contains id && st.hostage.isSome then
          some ("Disconnected (offline): " ++ id) else none) =
        some ("Disconnected (offline): " ++ id)
      rw [hc, hh]
      rfl

theorem applySnapshot_present (sps : Speakers) (snapshot : List Speaker)
    (sp : Speaker) (hmem : sp ∈ snapshot) (hnd : (snapshot.map (fun x => x.id)).Nodup) :
    alookup sp.id (applySnapshot sps snapshot).1 = some
      (match alookup sp.id sps with
       | some st => { st with info := sp, connected := true }
       | none => { info := sp, connected := true, reserved := false, hostage := none }) := by
  have hc : (snapshot.map (fun x => x.id)).contains sp.id = true := by
    simpa using List.mem_map_of_mem (fun x => x.id) hmem
  have hst1 := alookup_upsertSpeakers_mem snapshot sps sp hmem (by simpa using hnd)
  simp only [applySnapshot]
  rw [alookup_offline_map, hst1, Option.map_some', if_pos hc]

/-! ## Claim C7 -/

/-- C7 (confirmed): merging a discovery snapshot sets
`connected := false` and drops the hostage (logging a
"Disconnected (offline)" line when one was live) for every pre-existing
id absent from the snapshot, leaving `reserved` untouched (the record
`{ st with connected := false, hostage := none }` keeps `st.reserved`);
ids present in the snapshot end up `connected = true` with their info
updated to the snapshot entry. -/
theorem claim_C7 :
    (∀ (sps : Speakers) (snapshot : List Speaker) (id : String) (st : SpeakerState),
      alookup id sps = some st → id ∉ snapshot.map (fun sp => sp.id) →
      alookup id (applySnapshot sps snapshot).1 =
        some { st with connected := false, hostage := none } ∧
      (st.hostage.isSome = true →
        ("Disconnected (offline): " ++ id) ∈ (applySnapshot sps snapshot).2)) ∧
    (∀ (sps : Speakers) (snapshot : List Speaker) (sp : Speaker) (st : SpeakerState),
      sp ∈ snapshot → (snapshot.map (fun x => x.id)).Nodup →
      alookup sp.id sps = some st →
      alookup sp.id (applySnapshot sps snapshot).1 =
        some { st with info := sp, connected := true }) ∧
    (∀ (sps : Speakers) (snapshot : List Speaker) (sp : Speaker),
      sp ∈ snapshot → (snapshot.map (fun x => x.id)).Nodup →
      ∃ st', alookup sp.id (applySnapshot sps snapshot).1 = some st' ∧
        st'.connected = true ∧ st'.info = sp) := by
  refine ⟨fun sps snapshot id st hlook h => applySnapshot_offline sps snapshot id st hlook h,
    ?_, ?_⟩
  · intro sps snapshot sp st hmem hnd hlook
    rw [applySnapshot_present sps snapshot sp hmem hnd, hlook]
  · intro sps snapshot sp hmem hnd
    rw [applySnapshot_present sps snapshot sp hmem hnd]
    cases alookup sp.id sps with
    | some st => exact ⟨_, rfl, rfl, rfl⟩
    | none => exact ⟨_, rfl, rfl, rfl⟩

/-- C7 witness: the merge theorem applied to a concrete registry holding
an online reserved speaker "A" with a live hostage and an offline row
"B", merged with a snapshot containing only "B". -/
theorem claim_C7_witness :
    (alookup "A" (applySnapshot
        [("A", { info := { id := "A" }, connected := true, reserved := true,
                 hostage := some { connected := true, waitReady := true,
                                   sendOk := true, reconnectOk := true } }),
         ("B", { info := { id := "B" } })]
        [{ id := "B", name := "b" }]).1 =
      some { info := { id := "A" }, connected := false, reserved := true,
             hostage := none }) ∧
    ("Disconnected (offline): A" ∈ (applySnapshot
        [("A", { info := { id := "A" }, connected := true, reserved := true,
                 hostage := some { connected := true, waitReady := true,
                                   sendOk := true, reconnectOk := true } }),
         ("B", { info := { id := "B" } })]
        [{ id := "B", name := "b" }]).2) ∧
    (alookup "B" (applySnapshot
        [("A", { info := { id := "A" }, connected := true, reserved := true,
                 hostage := some { connected := true, waitReady := true,
                                   sendOk := true, reconnectOk := true } }),
         ("B", { info := { id := "B" } })]
        [{ id := "B", name := "b" }]).1 =
      some { info := { id := "B", name := "b" }, connected := true }) := by
  have h1 := claim_C7.1
    [("A", { info := { id := "A" }, connected := true, reserved := true,
             hostage := some { connected := true, waitReady := true,
                               sendOk := true, reconnectOk := true } }),
     ("B", { info := { id := "B" } })]
    [{ id := "B", name := "b" }] "A"
    { info := { id := "A" }, connected := true, reserved := true,
      hostage := some { connected := true, waitReady := true,
                        sendOk := true, reconnectOk := true } }
    (by rfl) (by decide)
  have h2 := claim_C7.2.1
    [("A", { info := { id := "A" }, connected := true, reserved := true,
             hostage := some { connected := true, waitReady := true,
                               sendOk := true, reconnectOk := true } }),
     ("B", { info := { id := "B" } })]
    [{ id := "B", name := "b" }] { id := "B", name := "b" }
    { info := { id := "B" } }
    (by decide) (by decide) (by rfl)
  exact ⟨h1.1, h1.2 rfl, h2⟩

/-! ## Streamer-iteration lemmas (claims C2, C3, C5) -/

/-- The synthesized silence chunk is non-empty. -/
theorem silenceChunk_not_empty : (List.replicate kChunkBytes 0).isEmpty = false := rfl

theorem sendLoop_ids_subset (chunk : Chunk) (sps : Speakers)
    (hs : List (String × HostageB)) :
    ∀ id, (id ∈ (sendLoop chunk sps hs).sentOk ∨
           id ∈ (sendLoop chunk sps hs).sendFailed ∨
           id ∈ (sendLoop chunk sps hs).reconnectAttempted) →
      id ∈ hs.map Prod.fst := by
  induction hs generalizing sps with
  | nil =>
      intro id h
      rcases h with h | h | h <;> simp [sendLoop] at h
  | cons kv rest ih =>
      obtain ⟨id0, h0⟩ := kv
      intro id h
      rw [sendLoop] at h
      simp only [List.map_cons, List.mem_cons]
      by_cases hconn : (!h0.connected) = true
      · rw [if_pos hconn] at h
        exact Or.inr (ih sps id h)
      · rw [if_neg hconn] at h
        by_cases hsend : sendAudioChunkB h0 chunk.length = true
        · rw [if_pos hsend] at h
          simp only [List.mem_cons] at h
          rcases h with (heq | h) | h | h
          · exact Or.inl heq
          · exact Or.inr (ih sps id (Or.inl h))
          · exact Or.inr (ih sps id (Or.inr (Or.inl h)))
          · exact Or.inr (ih sps id (Or.inr (Or.inr h)))
        · rw [if_neg hsend] at h
          cases hatt : (match alookup id0 sps with
            | some st =>
                match st.hostage with
                | some h2 =>
                    if st.info.ip ≠ "" && st.info.port > 0 then
                      some (h2.reconnectOk,
                        aupdate id0 (fun s : SpeakerState =>
                          { s with hostage := some { (s.hostage.getD h2) with
                              connected := h2.reconnectOk } }) sps)
                    else none
                | none => none
            | none => none) with
          | some pr =>
              obtain ⟨succ, sps'⟩ := pr
              rw [hatt] at h
              simp only [List.mem_cons] at h
              rcases h with h | (heq | h) | (heq | h)
              · exact Or.inr (ih sps' id (Or.inl h))
              · exact Or.inl heq
              · exact Or.inr (ih sps' id (Or.inr (Or.inl h)))
              · exact Or.inl heq
              · exact Or.inr (ih sps' id (Or.inr (Or.inr h)))
          | none =>
              rw [hatt] at h
              simp only [List.mem_cons] at h
              rcases h with h | (heq | h) | h
              · exact Or.inr (ih sps id (Or.inl h))
              · exact Or.inl heq
              · exact Or.inr (ih sps id (Or.inr (Or.inl h)))
              · exact Or.inr (ih sps id (Or.inr (Or.inr h)))

theorem sendLoop_speakers_ne (chunk : Chunk) (sps : Speakers)
    (hs : List (String × HostageB)) (id : String) (h : id ∉ hs.map Prod.fst) :
    alookup id (sendLoop chunk sps hs).speakers = alookup id sps := by
  induction hs generalizing sps with
  | nil => rfl
  | cons kv rest ih =>
      obtain ⟨id0, h0⟩ := kv
      simp only [List.map_cons, List.mem_cons, not_or] at h
      rw [sendLoop]
      by_cases hconn : (!h0.connected) = true
      · rw [if_pos hconn]
        exact ih sps h.2
      · rw [if_neg hconn]
        by_cases hsend : sendAudioChunkB h0 chunk.length = true
        · rw [if_pos hsend]
          exact ih sps h.2
        · rw [if_neg hsend]
          cases hatt : (match alookup id0 sps with
            | some st =>
                match st.hostage with
                | some h2 =>
                    if st.info.ip ≠ "" && st.info.port > 0 then
                      some (h2.reconnectOk,
                        aupdate id0 (fun s : SpeakerState =>
                          { s with hostage := some { (s.hostage.getD h2) with
                              connected := h2.reconnectOk } }) sps)
                    else none
                | none => none
            | none => none) with
          | some pr =>
              obtain ⟨succ, sps'⟩ := pr
              have hsps' : alookup id sps' = alookup id sps := by
                cases hl : alookup id0 sps with
                | none => rw [hl] at hatt; dsimp only at hatt; cases hatt
                | some st =>
                    rw [hl] at hatt
                    dsimp only at hatt
                    cases hh : st.hostage with
                    | none => rw [hh] at hatt; dsimp only at hatt; cases hatt
                    | some h2 =>
                        rw [hh] at hatt
                        dsimp only at hatt
                        by_cases hip : (st.info.ip ≠ "" && st.info.port > 0) = true
                        · rw [if_pos hip] at hatt
                          cases hatt
                          exact alookup_aupdate_ne (fun heq => h.1 heq.symm) _ _
                        · rw [if_neg hip] at hatt
                          cases hatt
              rw [ih sps' h.2, hsps']
          | none => exact ih sps h.2

theorem snapshotHostages_fst_mem (sps : Speakers) (ids : List String) (id : String)
    (h : id ∈ (snapshotHostages sps ids).map Prod.fst) :
    ∃ st hb, alookup id sps = some st ∧ st.hostage = some hb ∧ hb.connected = true := by
  obtain ⟨pair, hpair, hfst⟩ := List.mem_map.mp h
  obtain ⟨a, _, hfn⟩ := List.mem_filterMap.mp hpair
  cases hl : alookup a sps with
  | none => rw [hl] at hfn; dsimp only at hfn; cases hfn
  | some st =>
      rw [hl] at hfn
      dsimp only at hfn
      cases hh : st.hostage with
      | none => rw [hh] at hfn; dsimp only at hfn; cases hfn
      | some hb =>
          rw [hh] at hfn
          dsimp only at hfn
          by_cases hc : hb.connected = true
          · rw [if_pos hc] at hfn
            cases hfn
            exact ⟨st, hb, hfst ▸ hl, hh, hc⟩
          · rw [if_neg hc] at hfn
            cases hfn

/-! ## Claims C2 and C5: concrete stall scenarios -/

/-- A connected hostage whose `waitForFramesReady` always fails. -/
def stalledHostage : HostageB :=
  { connected := true, waitReady := false, sendOk := true, reconnectOk := true }

def c2Speaker : SpeakerState :=
  { info := { id := "A", ip := "10.0.0.2", port := 7000 }, connected := true,
    reserved := true, hostage := some stalledHostage }

def c2Chunk : Chunk := List.replicate kChunkBytes 1

def c2Group : GroupInfo :=
  { name := "g", port := 6000, speakerIds := ["A"], chunkQueue := [c2Chunk],
    streamerRunning := true }

/-- C2 counterexample: in an iteration where the one connected member
hostage fails `waitForFramesReady` on a real chunk, the streamer makes
zero reconnect attempts (the claim demands exactly one): it only
requeues the chunk and leaves the speaker registry untouched.  There is
no `not_ready_streak` counter in the code at all. -/
theorem claim_C2_counterexample :
    (streamIter "g" [("g", c2Group)] [("A", c2Speaker)]).requeuedChunk = some c2Chunk ∧
    (streamIter "g" [("g", c2Group)] [("A", c2Speaker)]).reconnectAttempted = [] ∧
    (streamIter "g" [("g", c2Group)] [("A", c2Speaker)]).speakers = [("A", c2Speaker)] :=
  ⟨rfl, rfl, rfl⟩

/-- C5 counterexample: with the hostage still stalled on the next
iteration, the very same real chunk is requeued at the head a second
time, refuting "any given real chunk is requeued at the head exactly
once". -/
theorem claim_C5_counterexample :
    (streamIter "g" [("g", c2Group)] [("A", c2Speaker)]).requeuedChunk = some c2Chunk ∧
    (streamIter "g" (streamIter "g" [("g", c2Group)] [("A", c2Speaker)]).groups
        (streamIter "g" [("g", c2Group)] [("A", c2Speaker)]).speakers).requeuedChunk =
      some c2Chunk :=
  ⟨rfl, rfl⟩

/-- Requeue branch of one streamer iteration (`main.cpp` lines
162-180): a blocked non-silence chunk goes back to the front of the
queue and nothing else happens. -/
theorem streamIter_requeue (gname : String) (gs : Groups) (sps : Speakers)
    (g : GroupInfo) (c : Chunk) (rest : List Chunk)
    (hlook : alookup gname gs = some g) (hrun : g.streamerRunning = true)
    (hq : g.chunkQueue = c :: rest) (hne : c.isEmpty = false)
    (hb : (findBlocked (snapshotHostages sps g.speakerIds)).isSome = true) :
    streamIter gname gs sps =
      { groups := aupdate gname
          (fun g' => { g' with chunkQueue := c :: g'.chunkQueue })
          (aupdate gname (fun g' : GroupInfo => { g' with chunkQueue := rest }) gs),
        speakers := sps, isSilence := false, requeuedChunk := some c } := by
  rw [streamIter, hlook]
  dsimp only
  rw [hrun]
  simp only [Bool.not_true, Bool.false_eq_true, if_false]
  rw [hq]
  dsimp only
  rw [hne]
  simp only [Bool.false_eq_true, if_false]
  rw [hb]
  simp only [Bool.not_false, Bool.and_true, if_true]

/-- Silence branch of one streamer iteration (`main.cpp` lines
142-153, 182-220): an empty queue synthesizes a silence chunk, never
requeues it, bumps the silence counter and still runs the send phase. -/
theorem streamIter_silence (gname : String) (gs : Groups) (sps : Speakers)
    (g : GroupInfo) (hlook : alookup gname gs = some g)
    (hrun : g.streamerRunning = true) (hq : g.chunkQueue = []) :
    streamIter gname gs sps =
      { groups := aupdate gname
          (fun g' : GroupInfo =>
            { g' with consecutiveSilenceChunks := g'.consecutiveSilenceChunks + 1 }) gs,
        speakers := (sendLoop (List.replicate kChunkBytes 0) sps
          (snapshotHostages sps g.speakerIds)).speakers,
        isSilence := true,
        sentOk := (sendLoop (List.replicate kChunkBytes 0) sps
          (snapshotHostages sps g.speakerIds)).sentOk,
        sendFailed := (sendLoop (List.replicate kChunkBytes 0) sps
          (snapshotHostages sps g.speakerIds)).sendFailed,
        reconnectAttempted := (sendLoop (List.replicate kChunkBytes 0) sps
          (snapshotHostages sps g.speakerIds)).reconnectAttempted,
        reconnectSucceeded := (sendLoop (List.replicate kChunkBytes 0) sps
          (snapshotHostages sps g.speakerIds)).reconnectSucceeded } := by
  rw [streamIter, hlook]
  dsimp only
  rw [hrun]
  simp only [Bool.not_true, Bool.false_eq_true, if_false]
  rw [hq]
  dsimp only
  rw [silenceChunk_not_empty]
  simp only [Bool.not_true, Bool.and_false, Bool.false_eq_true, if_false, if_true]

/-- C2 (amended): there is no `not_ready_streak` counter and no
reconnect-on-stall in the code.  When a connected member hostage fails
`wait_for_frames_ready` on a real (non-silence) chunk, the iteration
requeues that chunk at the front of the queue and ends: no send is
attempted, no reconnect attempt is made, and the speaker registry is
unchanged; the streamer simply sleeps 2 ms and retries.  Reconnects
happen only on `send_audio_chunk` failure. -/
theorem claim_C2_amended :
    ∀ (gname : String) (gs : Groups) (sps : Speakers) (g : GroupInfo)
      (c : Chunk) (rest : List Chunk),
      alookup gname gs = some g →
      g.streamerRunning = true →
      g.chunkQueue = c :: rest →
      c.isEmpty = false →
      (findBlocked (snapshotHostages sps g.speakerIds)).isSome = true →
      (streamIter gname gs sps).requeuedChunk = some c ∧
      (streamIter gname gs sps).reconnectAttempted = [] ∧
      (streamIter gname gs sps).sentOk = [] ∧
      (streamIter gname gs sps).sendFailed = [] ∧
      (streamIter gname gs sps).speakers = sps ∧
      alookup gname (streamIter gname gs sps).groups =
        some { g with chunkQueue := c :: rest } := by
  intro gname gs sps g c rest hlook hrun hq hne hb
  rw [streamIter_requeue gname gs sps g c rest hlook hrun hq hne hb]
  refine ⟨rfl, rfl, rfl, rfl, rfl, ?_⟩
  show alookup gname (aupdate gname _ (aupdate gname _ gs)) = _
  rw [alookup_aupdate_self, alookup_aupdate_self, hlook]
  rfl

/-- C2 witness: the amended no-reconnect-on-stall theorem applied to
the concrete one-speaker stalled group. -/
theorem claim_C2_witness :
    (streamIter "g" [("g", c2Group)] [("A", c2Speaker)]).sentOk = [] ∧
    alookup "g" (streamIter "g" [("g", c2Group)] [("A", c2Speaker)]).groups =
      some { c2Group with chunkQueue := [c2Chunk] } := by
  have h := claim_C2_amended "g" [("g", c2Group)] [("A", c2Speaker)] c2Group c2Chunk []
    (by rfl) (by rfl) (by rfl) (by rfl) (by rfl)
  exact ⟨h.2.2.1, h.2.2.2.2.2⟩

/-- C5 (amended): when a blocked speaker is recorded and the popped
chunk is not silence, the chunk is pushed back to the front of the
queue — once per such iteration, restoring the queue head — and a
synthesized silence chunk is never requeued (though it still goes
through the send phase); while the blockage persists the same real
chunk may be requeued again on each subsequent blocked iteration, so a
chunk is not requeued "exactly once" overall. -/
theorem claim_C5_amended :
    ∀ (gname : String) (gs : Groups) (sps : Speakers) (g : GroupInfo),
      alookup gname gs = some g → g.streamerRunning = true →
      (∀ c rest, g.chunkQueue = c :: rest → c.isEmpty = false →
        (findBlocked (snapshotHostages sps g.speakerIds)).isSome = true →
        (streamIter gname gs sps).requeuedChunk = some c ∧
        alookup gname (streamIter gname gs sps).groups =
          some { g with chunkQueue := c :: rest }) ∧
      (g.chunkQueue = [] →
        (streamIter gname gs sps).isSilence = true ∧
        (streamIter gname gs sps).requeuedChunk = none ∧
        alookup gname (streamIter gname gs sps).groups =
          some { g with consecutiveSilenceChunks := g.consecutiveSilenceChunks + 1 }) := by
  intro gname gs sps g hlook hrun
  constructor
  · intro c rest hq hne hb
    have h := claim_C2_amended gname gs sps g c rest hlook hrun hq hne hb
    exact ⟨h.1, h.2.2.2.2.2⟩
  · intro hq
    rw [streamIter_silence gname gs sps g hlook hrun hq]
    refine ⟨rfl, rfl, ?_⟩
    show alookup gname (aupdate gname _ gs) = _
    rw [alookup_aupdate_self, hlook]
    rfl

/-- C5 witness: blocked-iteration requeue and empty-queue silence
applied at concrete states. -/
theorem claim_C5_witness :
    alookup "g" (streamIter "g" [("g", c2Group)] [("A", c2Speaker)]).groups =
      some { c2Group with chunkQueue := [c2Chunk] } ∧
    (streamIter "g" [("g", { c2Group with chunkQueue := [] })]
        [("A", c2Speaker)]).isSilence = true := by
  constructor
  · exact ((claim_C5_amended "g" [("g", c2Group)] [("A", c2Speaker)] c2Group
      (by rfl) (by rfl)).1 c2Chunk [] (by rfl) (by rfl) (by rfl)).2
  · exact ((claim_C5_amended "g" [("g", { c2Group with chunkQueue := [] })]
      [("A", c2Speaker)] { c2Group with chunkQueue := [] }
      (by rfl) (by rfl)).2 (by rfl)).1

/-! ## Claim C3: returning speakers are not reconnected -/

/-- A speaker whose registry row has no hostage is invisible to a
streamer iteration: it is never sent to, never reconnect-attempted, and
its row is untouched. -/
theorem streamIter_untouched (gname : String) (gs : Groups) (sps : Speakers)
    (id : String) (st : SpeakerState) (hlook : alookup id sps = some st)
    (hh : st.hostage = none) :
    id ∉ (streamIter gname gs sps).sentOk ∧
    id ∉ (streamIter gname gs sps).sendFailed ∧
    id ∉ (streamIter gname gs sps).reconnectAttempted ∧
    alookup id (streamIter gname gs sps).speakers = some st := by
  have hnot : ∀ ids, id ∉ (snapshotHostages sps ids).map Prod.fst := by
    intro ids hmem
    obtain ⟨st2, hb2, hl2, hh2, _⟩ := snapshotHostages_fst_mem sps ids id hmem
    rw [hlook] at hl2
    cases hl2
    rw [hh] at hh2
    cases hh2
  rw [streamIter]
  cases halook : alookup gname gs with
  | none =>
      dsimp only
      exact ⟨by simp, by simp, by simp, hlook⟩
  | some g =>
      dsimp only
      by_cases hrun : g.streamerRunning = true
      · rw [hrun]
        simp only [Bool.not_true, Bool.false_eq_true, if_false]
        cases hq : g.chunkQueue with
        | nil =>
            dsimp only
            rw [silenceChunk_not_empty]
            simp only [Bool.not_true, Bool.and_false, Bool.false_eq_true, if_false, if_true]
            refine ⟨?_, ?_, ?_, ?_⟩
            · intro hmem
              exact hnot g.speakerIds (sendLoop_ids_subset _ sps _ id (Or.inl hmem))
            · intro hmem
              exact hnot g.speakerIds (sendLoop_ids_subset _ sps _ id (Or.inr (Or.inl hmem)))
            · intro hmem
              exact hnot g.speakerIds (sendLoop_ids_subset _ sps _ id (Or.inr (Or.inr hmem)))
            · rw [sendLoop_speakers_ne _ sps _ id (hnot g.speakerIds)]
              exact hlook
        | cons c rest =>
            dsimp only
            by_cases hemp : c.isEmpty = true
            · rw [hemp]
              simp only [if_true]
              exact ⟨by simp, by simp, by simp, hlook⟩
            · rw [Bool.not_eq_true c.isEmpty] at hemp
              rw [hemp]
              simp only [Bool.false_eq_true, if_false]
              by_cases hblk : (findBlocked (snapshotHostages sps g.speakerIds)).isSome = true
              · rw [hblk]
                simp only [Bool.not_false, Bool.and_true, if_true]
                exact ⟨by simp, by simp, by simp, hlook⟩
              · rw [Bool.not_eq_true _] at hblk
                rw [hblk]
                simp only [Bool.false_and, Bool.false_eq_true, if_false]
                refine ⟨?_, ?_, ?_, ?_⟩
                · intro hmem
                  exact hnot g.speakerIds (sendLoop_ids_subset _ sps _ id (Or.inl hmem))
                · intro hmem
                  exact hnot g.speakerIds (sendLoop_ids_subset _ sps _ id (Or.inr (Or.inl hmem)))
                · intro hmem
                  exact hnot g.speakerIds (sendLoop_ids_subset _ sps _ id (Or.inr (Or.inr hmem)))
                · rw [sendLoop_speakers_ne _ sps _ id (hnot g.speakerIds)]
                  exact hlook
      · rw [Bool.not_eq_true _] at hrun
        rw [hrun]
        simp only [Bool.not_false, if_true]
        exact ⟨by simp, by simp, by simp, hlook⟩

/-- Merging a snapshot never recreates a hostage: a row whose hostage
is null still has a null hostage afterwards (its `reserved` flag
untouched). -/
theorem applySnapshot_hostage_none (sps : Speakers) (snapshot : List Speaker)
    (id : String) (st : SpeakerState) (hlook : alookup id sps = some st)
    (hh : st.hostage = none) :
    ∃ st', alookup id (applySnapshot sps snapshot).1 = some st' ∧
      st'.hostage = none ∧ st'.reserved = st.reserved := by
  obtain ⟨st1, h1, hh1, hr1⟩ := alookup_upsertSpeakers_fields snapshot sps id st hlook
  simp only [applySnapshot]
  rw [alookup_offline_map, h1, Option.map_some']
  by_cases hc : ((snapshot.map (fun x => x.id)).contains id) = true
  · rw [if_pos hc]
    exact ⟨st1, rfl, hh ▸ hh1, hr1⟩
  · rw [if_neg hc]
    exact ⟨_, rfl, rfl, hr1⟩

def c3Speaker : Speaker := { id := "A", name := "A", ip := "10.0.0.2", port := 7000 }

/-- Registry row of a speaker that went offline while reserved: its
hostage was dropped and reset to null. -/
def c3OfflineState : SpeakerState :=
  { info := c3Speaker, connected := false, reserved := true, hostage := none }

def c3Group : GroupInfo :=
  { name := "g", port := 6000, speakerIds := ["A"], streamerRunning := true }

/-- C3 counterexample: after the reserved offline speaker "A"
reappears in a snapshot, its `connected` flag is true but its hostage
is still null, and the next streamer iteration makes no reconnect
attempt and no send for it and leaves its hostage null — the claimed
reconnection never happens. -/
theorem claim_C3_counterexample :
    (alookup "A" (applySnapshot [("A", c3OfflineState)] [c3Speaker]).1).map
        (fun st => (st.connected, st.hostage)) = some (true, none) ∧
    (streamIter "g" [("g", c3Group)]
        (applySnapshot [("A", c3OfflineState)] [c3Speaker]).1).reconnectAttempted = [] ∧
    (streamIter "g" [("g", c3Group)]
        (applySnapshot [("A", c3OfflineState)] [c3Speaker]).1).sentOk = [] ∧
    (alookup "A" (streamIter "g" [("g", c3Group)]
        (applySnapshot [("A", c3OfflineState)] [c3Speaker]).1).speakers).map
        (fun st => st.hostage) = some none :=
  ⟨rfl, rfl, rfl, rfl⟩

/-- C3 (amended): when a reserved offline speaker (hostage null)
reappears in a discovery snapshot, its `connected` flag becomes true
and its info is updated, but no hostage is recreated: the streamer
iteration neither reconnects nor sends to a speaker whose hostage is
null, and its row keeps a null hostage.  The speaker rejoins fan-out
only when a later group creation constructs a new hostage. -/
theorem claim_C3_amended :
    ∀ (sps : Speakers) (snapshot : List Speaker) (id : String) (st : SpeakerState),
      alookup id sps = some st → st.hostage = none →
      (∀ sp ∈ snapshot, sp.id = id → (snapshot.map (fun x => x.id)).Nodup →
        alookup id (applySnapshot sps snapshot).1 =
          some { st with info := sp, connected := true }) ∧
      (∃ st', alookup id (applySnapshot sps snapshot).1 = some st' ∧
        st'.hostage = none ∧ st'.reserved = st.reserved) ∧
      (∀ (gname : String) (gs : Groups) (st' : SpeakerState),
        alookup id (applySnapshot sps snapshot).1 = some st' →
        id ∉ (streamIter gname gs (applySnapshot sps snapshot).1).reconnectAttempted ∧
        id ∉ (streamIter gname gs (applySnapshot sps snapshot).1).sentOk ∧
        (st'.hostage = none →
          alookup id (streamIter gname gs
            (applySnapshot sps snapshot).1).speakers = some st')) := by
  intro sps snapshot id st hlook hh
  refine ⟨?_, applySnapshot_hostage_none sps snapshot id st hlook hh, ?_⟩
  · intro sp hmem heq hnd
    have := applySnapshot_present sps snapshot sp hmem hnd
    rw [heq] at this
    rw [this, hlook]
  · intro gname gs st' hlook'
    obtain ⟨st2, hl2, hh2, _⟩ := applySnapshot_hostage_none sps snapshot id st hlook hh
    rw [hlook'] at hl2
    cases hl2
    have h := streamIter_untouched gname gs (applySnapshot sps snapshot).1 id st' hlook' hh2
    exact ⟨h.2.2.1, h.1, fun _ => h.2.2.2⟩

/-- C3 witness: the amended theorem applied to the concrete returning
speaker "A". -/
theorem claim_C3_witness :
    alookup "A" (applySnapshot [("A", c3OfflineState)] [c3Speaker]).1 =
      some { c3OfflineState with info := c3Speaker, connected := true } ∧
    "A" ∉ (streamIter "g" [("g", c3Group)]
        (applySnapshot [("A", c3OfflineState)] [c3Speaker]).1).reconnectAttempted := by
  have h := claim_C3_amended [("A", c3OfflineState)] [c3Speaker] "A" c3OfflineState
    (by rfl) (by rfl)
  refine ⟨h.1 c3Speaker (by simp) (by rfl) (by decide), ?_⟩
  obtain ⟨st', hl', _, _⟩ := h.2.1
  exact (h.2.2 "g" [("g", c3Group)] st' hl').1

/-! ## Claim C9: invalid create-group inputs mutate nothing -/

/-- C9 (confirmed): every cancelled create flow — empty name, duplicate
name, no speakers selected, no free port (and the interface-selection
cancellations as well) — returns the shared state exactly as it was:
no hostage, no reservation, no group row; and each of the four claimed
invalid inputs produces its status-line cancellation. -/
theorem claim_C9 :
    ∀ (st : AppState) (name : String) (selection : List Int)
      (interfaces : List String) (ifaceChoice : Option Nat)
      (mk : String → HostageB),
      ((createGroupFlow st name selection interfaces ifaceChoice mk).2 ≠
          CreateResult.created →
        (createGroupFlow st name selection interfaces ifaceChoice mk).1 = st) ∧
      (name = "" →
        (createGroupFlow st name selection interfaces ifaceChoice mk).2 =
          CreateResult.cancelledEmptyName) ∧
      (name ≠ "" → (alookup name st.groups).isSome = true →
        (createGroupFlow st name selection interfaces ifaceChoice mk).2 =
          CreateResult.cancelledDuplicate) ∧
      (name ≠ "" → (alookup name st.groups).isSome = false →
        (availableSpeakers st.speakerStates).isEmpty = false →
        resolveSelection (availableSpeakers st.speakerStates) selection = [] →
        (createGroupFlow st name selection interfaces ifaceChoice mk).2 =
          CreateResult.cancelledNoneSelected) ∧
      (∀ i, name ≠ "" → (alookup name st.groups).isSome = false →
        (availableSpeakers st.speakerStates).isEmpty = false →
        resolveSelection (availableSpeakers st.speakerStates) selection ≠ [] →
        interfaces.isEmpty = false →
        ifaceChoice = some i → i < interfaces.length →
        allocatePortLocked st.groups < 0 →
        (createGroupFlow st name selection interfaces ifaceChoice mk).2 =
          CreateResult.cancelledNoPort) := by
  intro st name selection interfaces ifaceChoice mk
  refine ⟨?_, ?_, ?_, ?_, ?_⟩
  · intro hne
    rw [createGroupFlow] at hne ⊢
    by_cases h1 : name = ""
    · rw [if_pos h1]
    · rw [if_neg h1] at hne ⊢
      by_cases h2 : (alookup name st.groups).isSome = true
      · rw [if_pos h2]
      · rw [if_neg h2] at hne ⊢
        by_cases h3 : (availableSpeakers st.speakerStates).isEmpty = true
        · rw [if_pos h3]
        · rw [if_neg h3] at hne ⊢
          by_cases h4 : (resolveSelection (availableSpeakers st.speakerStates)
              selection).isEmpty = true
          · rw [if_pos h4]
          · rw [if_neg h4] at hne ⊢
            by_cases h5 : interfaces.isEmpty = true
            · rw [if_pos h5]
            · rw [if_neg h5] at hne ⊢
              cases hic : ifaceChoice with
              | none => rfl
              | some i =>
                  rw [hic] at hne
                  dsimp only at hne ⊢
                  by_cases h6 : interfaces.length ≤ i
                  · rw [dif_pos h6]
                  · rw [dif_neg h6] at hne ⊢
                    by_cases h7 : allocatePortLocked st.groups < 0
                    · rw [if_pos h7]
                    · rw [if_neg h7] at hne
                      exact absurd rfl hne
  · intro h1
    rw [createGroupFlow, if_pos h1]
  · intro h1 h2
    rw [createGroupFlow, if_neg h1, if_pos h2]
  · intro h1 h2 h3 h4
    rw [createGroupFlow, if_neg h1, if_neg (by rw [h2]; exact Bool.false_ne_true),
      if_neg (by rw [h3]; exact Bool.false_ne_true),
      if_pos (by rw [h4]; rfl)]
  · intro i h1 h2 h3 h4 h5 hic h6 h7
    have h4' : ¬ (resolveSelection (availableSpeakers st.speakerStates)
        selection).isEmpty = true := by
      cases hres : resolveSelection (availableSpeakers st.speakerStates) selection with
      | nil => exact absurd hres h4
      | cons a l => simp
    rw [createGroupFlow, if_neg h1, if_neg (by rw [h2]; exact Bool.false_ne_true),
      if_neg (by rw [h3]; exact Bool.false_ne_true), if_neg h4',
      if_neg (by rw [h5]; exact Bool.false_ne_true), hic]
    dsimp only
    rw [dif_neg (by omega), if_pos h7]

/-- Concrete registry with one connected free speaker, used by the C9
witness. -/
def c9State : AppState :=
  { speakerStates := [("A", { info := { id := "A" }, connected := true })],
    groups := [] }

/-- C9 witness: the four cancellations and state preservation at
concrete inputs. -/
theorem claim_C9_witness :
    (createGroupFlow c9State "" [] [] none (fun _ => stalledHostage)).2 =
      CreateResult.cancelledEmptyName ∧
    (createGroupFlow c9State "liv" [] ["eth0"] (some 0)
        (fun _ => stalledHostage)).1 = c9State := by
  constructor
  · exact (claim_C9 c9State "" [] [] none (fun _ => stalledHostage)).2.1 rfl
  · refine (claim_C9 c9State "liv" [] ["eth0"] (some 0)
      (fun _ => stalledHostage)).1 ?_
    have h := (claim_C9 c9State "liv" [] ["eth0"] (some 0)
      (fun _ => stalledHostage)).2.2.2.1 (by decide) (by rfl) (by rfl) (by rfl)
    rw [h]
    decide

/-! ## Claim C8: port allocation -/

def usedPorts (gs : Groups) : List Int := gs.map (fun kv => kv.2.port)

theorem find?_range'_spec (n : Nat) : ∀ (s : Nat) (p : Nat → Bool) (x : Nat),
    (List.range' s n).find? p = some x →
    p x = true ∧ s ≤ x ∧ x < s + n ∧ ∀ q, s ≤ q → q < x → p q = false := by
  induction n with
  | zero =>
      intro s p x h
      simp [List.range'] at h
  | succ k ih =>
      intro s p x h
      rw [List.range'_succ] at h
      by_cases hs : p s = true
      · rw [List.find?_cons_of_pos _ hs] at h
        cases h
        exact ⟨hs, Nat.le_refl s, by omega, fun q hq1 hq2 => by omega⟩
      · rw [List.find?_cons_of_neg _ (by simpa using hs)] at h
        obtain ⟨hx, hlo, hhi, hbelow⟩ := ih (s + 1) p x h
        refine ⟨hx, by omega, by omega, ?_⟩
        intro q hq1 hq2
        by_cases hqs : q = s
        · subst hqs
          exact Bool.not_eq_true _ ▸ (by simpa using hs)
        · exact hbelow q (by omega) hq2

theorem find?_range'_eq (n : Nat) : ∀ (s : Nat) (p : Nat → Bool) (x : Nat),
    p x = true → s ≤ x → x < s + n → (∀ q, s ≤ q → q < x → p q = false) →
    (List.range' s n).find? p = some x := by
  induction n with
  | zero =>
      intro s p x _ hlo hhi _
      omega
  | succ k ih =>
      intro s p x hx hlo hhi hbelow
      rw [List.range'_succ]
      by_cases hxs : x = s
      · subst hxs
        exact List.find?_cons_of_pos _ hx
      · have hps : p s = false := hbelow s (Nat.le_refl s) (by omega)
        rw [List.find?_cons_of_neg _ (by simp [hps])]
        exact ih (s + 1) p x hx (by omega) (by omega) (fun q hq1 hq2 => hbelow q (by omega) hq2)

theorem allocatePortLocked_found (gs : Groups) (h : allocatePortLocked gs ≠ -1) :
    ∃ pn : Nat, allocatePortLocked gs = (pn : Int) ∧
      6000 ≤ pn ∧ pn < 20000 ∧
      ((pn : Int)) ∉ usedPorts gs ∧
      ∀ q : Int, 6000 ≤ q → q < (pn : Int) → q ∈ usedPorts gs := by
  rw [allocatePortLocked] at h ⊢
  cases hf : (List.range' 6000 14000).find?
      (fun p : Nat => !(gs.map (fun kv => kv.2.port)).contains ((p : Int))) with
  | none =>
      rw [hf] at h
      exact absurd rfl h
  | some pn =>
      dsimp only
      obtain ⟨hp, hlo, hhi, hbelow⟩ := find?_range'_spec 14000 6000 _ pn hf
      refine ⟨pn, rfl, hlo, by omega, ?_, ?_⟩
      · intro hmem
        have hcon : (gs.map (fun kv => kv.2.port)).contains ((pn : Int)) = true :=
          List.elem_eq_true_of_mem hmem
        rw [hcon] at hp
        simp at hp
      · intro q hq1 hq2
        have hq0 : 0 ≤ q := by omega
        have hqn : ((q.toNat : Int)) = q := Int.toNat_of_nonneg hq0
        have hlt : q.toNat < pn := by omega
        have hge : 6000 ≤ q.toNat := by omega
        have hbel := hbelow q.toNat hge hlt
        have hcon : (gs.map (fun kv => kv.2.port)).contains ((q.toNat : Int)) = true := by
          cases hcc : (gs.map (fun kv => kv.2.port)).contains ((q.toNat : Int)) with
          | true => rfl
          | false =>
              rw [hcc] at hbel
              simp at hbel
        have hmem : ((q.toNat : Int)) ∈ usedPorts gs := List.mem_of_elem_eq_true hcon
        rw [← hqn]
        exact hmem

theorem allocatePortLocked_none (gs : Groups) (h : allocatePortLocked gs = -1) :
    ∀ q : Int, 6000 ≤ q → q < 20000 → q ∈ usedPorts gs := by
  rw [allocatePortLocked] at h
  cases hf : (List.range' 6000 14000).find?
      (fun p : Nat => !(gs.map (fun kv => kv.2.port)).contains ((p : Int))) with
  | some pn =>
      rw [hf] at h
      dsimp only at h
      exact absurd h (by omega)
  | none =>
      intro q hq1 hq2
      have hq0 : 0 ≤ q := by omega
      have hqn : ((q.toNat : Int)) = q := Int.toNat_of_nonneg hq0
      have hmem : q.toNat ∈ List.range' 6000 14000 := by
        rw [List.mem_range'_1]
        omega
      have hnp := List.find?_eq_none.mp hf q.toNat hmem
      have hnp' : ¬ (!(gs.map (fun kv => kv.2.port)).contains ((q.toNat : Int))) = true := by
        simpa using hnp
      have hcon : (gs.map (fun kv => kv.2.port)).contains ((q.toNat : Int)) = true := by
        cases hcc : (gs.map (fun kv => kv.2.port)).contains ((q.toNat : Int)) with
        | true => rfl
        | false => exact absurd (by rw [hcc]; rfl) hnp'
      have hmem2 : ((q.toNat : Int)) ∈ usedPorts gs := List.mem_of_elem_eq_true hcon
      rw [← hqn]
      exact hmem2

theorem usedPorts_aupdate (k : String) (f : GroupInfo → GroupInfo) (gs : Groups)
    (hf : ∀ g, (f g).port = g.port) :
    usedPorts (aupdate k f gs) = usedPorts gs := by
  induction gs with
  | nil => rfl
  | cons kv rest ih =>
      obtain ⟨k', v⟩ := kv
      by_cases hk : k' = k
      · simp [aupdate, usedPorts, hk, hf]
      · simp only [aupdate, if_neg hk, usedPorts, List.map_cons] at ih ⊢
        rw [ih]

theorem usedPorts_ingestCallback (gname : String) (gs : Groups) (data : List Nat) :
    usedPorts (ingestCallback gname gs data) = usedPorts gs := by
  rw [ingestCallback]
  by_cases hd : data.length = 0
  · rw [if_pos hd]
  · rw [if_neg hd]
    cases hl : alookup gname gs with
    | none => rfl
    | some g =>
        dsimp only
        refine usedPorts_aupdate gname _ gs ?_
        intro g'
        rfl

theorem usedPorts_streamIter (gname : String) (gs : Groups) (sps : Speakers) :
    usedPorts (streamIter gname gs sps).groups = usedPorts gs := by
  rw [streamIter]
  cases halook : alookup gname gs with
  | none => rfl
  | some g =>
      dsimp only
      by_cases hrun : g.streamerRunning = true
      · rw [hrun]
        simp only [Bool.not_true, Bool.false_eq_true, if_false]
        cases hq : g.chunkQueue with
        | nil =>
            dsimp only
            rw [silenceChunk_not_empty]
            simp only [Bool.not_true, Bool.and_false, Bool.false_eq_true, if_false, if_true]
            refine usedPorts_aupdate gname _ gs ?_
            intro g'
            rfl
        | cons c rest =>
            dsimp only
            by_cases hemp : c.isEmpty = true
            · rw [hemp]
              simp only [if_true]
              refine usedPorts_aupdate gname _ gs ?_
              intro g'
              rfl
            · rw [Bool.not_eq_true c.isEmpty] at hemp
              rw [hemp]
              simp only [Bool.false_eq_true, if_false]
              by_cases hblk : (findBlocked (snapshotHostages sps g.speakerIds)).isSome = true
              · rw [hblk]
                simp only [Bool.not_false, Bool.and_true, if_true]
                refine (usedPorts_aupdate gname _ _ ?_).trans
                  (usedPorts_aupdate gname _ gs ?_)
                all_goals intro g'
                all_goals rfl
              · rw [Bool.not_eq_true _] at hblk
                rw [hblk]
                simp only [Bool.false_and, Bool.false_eq_true, if_false]
                refine (usedPorts_aupdate gname _ _ ?_).trans
                  (usedPorts_aupdate gname _ gs ?_)
                all_goals intro g'
                all_goals rfl
      · rw [Bool.not_eq_true _] at hrun
        rw [hrun]
        simp only [Bool.not_false, if_true]

theorem createGroupFlow_groups (st : AppState) (name : String) (selection : List Int)
    (interfaces : List String) (ifaceChoice : Option Nat) (mk : String → HostageB) :
    (createGroupFlow st name selection interfaces ifaceChoice mk).1.groups = st.groups ∨
    (alookup name st.groups = none ∧ ¬ allocatePortLocked st.groups < 0 ∧
     ∃ info : GroupInfo, info.port = allocatePortLocked st.groups ∧
       (createGroupFlow st name selection interfaces ifaceChoice mk).1.groups =
         st.groups ++ [(name, info)]) := by
  rw [createGroupFlow]
  by_cases h1 : name = ""
  · rw [if_pos h1]
    exact Or.inl rfl
  · rw [if_neg h1]
    by_cases h2 : (alookup name st.groups).isSome = true
    · rw [if_pos h2]
      exact Or.inl rfl
    · rw [if_neg h2]
      have hnone : alookup name st.groups = none := by
        cases hl : alookup name st.groups with
        | none => rfl
        | some g => rw [hl] at h2; exact absurd rfl h2
      by_cases h3 : (availableSpeakers st.speakerStates).isEmpty = true
      · rw [if_pos h3]
        exact Or.inl rfl
      · rw [if_neg h3]
        by_cases h4 : (resolveSelection (availableSpeakers st.speakerStates)
            selection).isEmpty = true
        · rw [if_pos h4]
          exact Or.inl rfl
        · rw [if_neg h4]
          by_cases h5 : interfaces.isEmpty = true
          · rw [if_pos h5]
            exact Or.inl rfl
          · rw [if_neg h5]
            cases ifaceChoice with
            | none => exact Or.inl rfl
            | some i =>
                dsimp only
                by_cases h6 : interfaces.length ≤ i
                · rw [dif_pos h6]
                  exact Or.inl rfl
                · rw [dif_neg h6]
                  by_cases h7 : allocatePortLocked st.groups < 0
                  · rw [if_pos h7]
                    exact Or.inl rfl
                  · rw [if_neg h7]
                    refine Or.inr ⟨hnone, h7,
                      ⟨{ name := name, port := allocatePortLocked st.groups,
                         parentInterface := interfaces.get ⟨i, by omega⟩,
                         speakerIds := resolveSelection
                           (availableSpeakers st.speakerStates) selection,
                         streamerRunning := true }, rfl, ?_⟩⟩
                    show aupsert name _ st.groups = _
                    rw [aupsert, hnone]

theorem deleteGroupFlow_groups (st : AppState) (name : String) :
    (deleteGroupFlow st name).1.groups = st.groups ∨
    (deleteGroupFlow st name).1.groups = aerase name st.groups := by
  rw [deleteGroupFlow]
  cases hl : alookup name st.groups with
  | none => exact Or.inl rfl
  | some g => exact Or.inr rfl

theorem applyOp_ports_nodup (st : AppState) (op : AppOp)
    (h : (usedPorts st.groups).Nodup) : (usedPorts (applyOp st op).groups).Nodup := by
  cases op with
  | create name sel ifs ic mk =>
      rcases createGroupFlow_groups st name sel ifs ic mk with hsame | ⟨_, hport, info, hip, happ⟩
      · rw [applyOp, hsame]
        exact h
      · rw [applyOp, happ]
        have hne : allocatePortLocked st.groups ≠ -1 := by omega
        obtain ⟨pn, halloc, _, _, hnotmem, _⟩ := allocatePortLocked_found st.groups hne
        rw [show usedPorts (st.groups ++ [(name, info)]) =
            usedPorts st.groups ++ [info.port] from by simp [usedPorts]]
        rw [List.nodup_append]
        refine ⟨h, List.nodup_singleton _, ?_⟩
        intro a ha hmem
        simp only [List.mem_singleton] at hmem
        subst hmem
        rw [hip, halloc] at ha
        exact hnotmem ha
  | delete name =>
      rcases deleteGroupFlow_groups st name with hsame | hdel
      · rw [applyOp, hsame]
        exact h
      · rw [applyOp, hdel]
        exact h.sublist (List.Sublist.map _ (aerase_sublist name st.groups))
  | ingest gname data =>
      rw [applyOp]
      show (usedPorts (ingestCallback gname st.groups data)).Nodup
      rw [usedPorts_ingestCallback]
      exact h
  | stream gname =>
      rw [applyOp]
      show (usedPorts (streamIter gname st.groups st.speakerStates).groups).Nodup
      rw [usedPorts_streamIter]
      exact h
  | discover snapshot =>
      rw [applyOp]
      exact h

theorem runOps_ports_nodup (ops : List AppOp) :
    (usedPorts (runOps ops).groups).Nodup := by
  rw [runOps]
  have hgen : ∀ st : AppState, (usedPorts st.groups).Nodup →
      (usedPorts (ops.foldl applyOp st).groups).Nodup := by
    induction ops with
    | nil => exact fun st h => h
    | cons op rest ih =>
        intro st h
        rw [List.foldl_cons]
        exact ih _ (applyOp_ports_nodup st op h)
  exact hgen {} (by simp [usedPorts])

theorem delete_then_alloc (st : AppState) (name : String) (g : GroupInfo)
    (hlook : alookup name st.groups = some g)
    (hbelow : ∀ q : Int, 6000 ≤ q → q < g.port → q ∈ usedPorts (aerase name st.groups))
    (hfree : g.port ∉ usedPorts (aerase name st.groups))
    (hlo : 6000 ≤ g.port) (hhi : g.port < 20000) :
    allocatePortLocked (deleteGroupFlow st name).1.groups = g.port := by
  have hdel : (deleteGroupFlow st name).1.groups = aerase name st.groups := by
    rw [deleteGroupFlow, hlook]
  rw [hdel, allocatePortLocked]
  have hq0 : 0 ≤ g.port := by omega
  have hqn : ((g.port.toNat : Int)) = g.port := Int.toNat_of_nonneg hq0
  have hres : (List.range' 6000 14000).find?
      (fun p : Nat => !((aerase name st.groups).map (fun kv => kv.2.port)).contains
        ((p : Int))) = some g.port.toNat := by
    refine find?_range'_eq 14000 6000 _ g.port.toNat ?_ (by omega) (by omega) ?_
    · cases hcc : ((aerase name st.groups).map (fun kv => kv.2.port)).contains
          ((g.port.toNat : Int)) with
      | false => rfl
      | true =>
          exfalso
          apply hfree
          rw [← hqn]
          exact List.mem_of_elem_eq_true hcc
    · intro q hq1 hq2
      have hmemq : ((q : Int)) ∈ usedPorts (aerase name st.groups) := by
        refine hbelow (q : Int) (by omega) ?_
        omega
      have hconq : ((aerase name st.groups).map (fun kv => kv.2.port)).contains
          ((q : Int)) = true := List.elem_eq_true_of_mem hmemq
      rw [hconq]
      rfl
  rw [hres]
  exact hqn

def spA : Speaker := { id := "A", name := "A", ip := "10.0.0.2", port := 7000 }
def spB : Speaker := { id := "B", name := "B", ip := "10.0.0.3", port := 7000 }

/-- Trace reaching a state whose only group "b" holds port 6001: create
two groups (ports 6000 and 6001), then delete the first. -/
def c8Ops1 : List AppOp :=
  [.discover [spA, spB],
   .create "a" [1] ["eth0"] (some 0) (fun _ => stalledHostage),
   .create "b" [1] ["eth0"] (some 0) (fun _ => stalledHostage),
   .delete "a"]

/-- C8 counterexample: in the reachable state whose only group "b"
holds port 6001 (the smallest port of any active group), deleting "b"
and creating the next group allocates 6000, not 6001 — so "after a
group holding the smallest port is deleted, the next creation allocates
that same port again" is false in general. -/
theorem claim_C8_counterexample :
    (runOps c8Ops1).groups.map (fun kv => kv.2.port) = [6001] ∧
    (alookup "b" (runOps c8Ops1).groups).map (fun g => g.port) = some 6001 ∧
    (alookup "c" (runOps (c8Ops1 ++ [.delete "b",
        .create "c" [1] ["eth0"] (some 0) (fun _ => stalledHostage)])).groups).map
      (fun g => g.port) = some 6000 ∧
    (6000 : Int) ≠ 6001 :=
  ⟨rfl, rfl, rfl, by decide⟩

/-- C8 (amended): `allocatePortLocked` scans `[6000, 20000)` and
returns the smallest port used by no existing group, `-1` when all are
used; along every operation trace the ports of active groups are
pairwise distinct; and after a group is deleted, the next allocation
returns that group's port exactly under the condition that every port
below it in the range is still in use (as in S4, where the deleted
group held the base port 6000) — deleting the holder of the smallest
active port in general re-allocates the smallest free port, which may
be smaller. -/
theorem claim_C8_amended :
    (∀ gs : Groups, allocatePortLocked gs ≠ -1 →
      ∃ pn : Nat, allocatePortLocked gs = (pn : Int) ∧ 6000 ≤ pn ∧ pn < 20000 ∧
        ((pn : Int)) ∉ usedPorts gs ∧
        ∀ q : Int, 6000 ≤ q → q < (pn : Int) → q ∈ usedPorts gs) ∧
    (∀ gs : Groups, allocatePortLocked gs = -1 →
      ∀ q : Int, 6000 ≤ q → q < 20000 → q ∈ usedPorts gs) ∧
    (∀ ops : List AppOp, (usedPorts (runOps ops).groups).Nodup) ∧
    (∀ (st : AppState) (name : String) (g : GroupInfo),
      alookup name st.groups = some g →
      (∀ q : Int, 6000 ≤ q → q < g.port → q ∈ usedPorts (aerase name st.groups)) →
      g.port ∉ usedPorts (aerase name st.groups) →
      6000 ≤ g.port → g.port < 20000 →
      allocatePortLocked (deleteGroupFlow st name).1.groups = g.port) :=
  ⟨allocatePortLocked_found, allocatePortLocked_none, runOps_ports_nodup, delete_then_alloc⟩

def c8GroupA : GroupInfo := { name := "a", port := 6000, streamerRunning := true }
def c8GroupB : GroupInfo := { name := "b", port := 6001, streamerRunning := true }

/-- C8 witness: the S4 re-allocation conjunct applied to two concrete
groups on ports 6000 and 6001, deleting the 6000 holder. -/
theorem claim_C8_witness :
    allocatePortLocked (deleteGroupFlow
      { speakerStates := [], groups := [("a", c8GroupA), ("b", c8GroupB)] }
      "a").1.groups = 6000 := by
  refine claim_C8_amended.2.2.2
    { speakerStates := [], groups := [("a", c8GroupA), ("b", c8GroupB)] }
    "a" c8GroupA rfl ?_ ?_ ?_ ?_
  · intro q h1 h2
    rw [show c8GroupA.port = (6000 : Int) from rfl] at h2
    exact absurd h1 (by omega)
  · intro hmem
    rw [show c8GroupA.port = (6000 : Int) from rfl] at hmem
    revert hmem
    decide
  · decide
  · decide

end Shiri
